import Mathlib

/-!
# Verification of the `re` regular-expression engine

A shallow embedding of the engine's three components, translated from the
Rust sources:

* `src/scanner/mod.rs` / `src/scanner/tokens.rs` — the lazy token scanner;
* `src/parser/mod.rs` / `src/parser/syntax_tree.rs` — the recursive-descent
  builder of the expression tree;
* `src/matcher/mod.rs` — the backtracking matcher and its iterator.

Rust `usize` values (cursor positions, bounds, table indices) are embedded as
`Nat`; the only subtraction that occurs in the sources is
`saturating_sub`, which coincides with truncated `Nat` subtraction.
Loops of the sources (the scanner is finite-state per token; the parser and
matcher loops) are embedded with an explicit fuel argument; exhausting fuel
yields `none`, while every genuine outcome of the code is `some _`.
All theorems below are conditioned on genuine outcomes, and the concrete
evaluations supply enough fuel for the runs they perform.

Note on the token vocabulary: `scanner/mod.rs` assigns variant names
`EscapedSlash`, `EscapedLeftParen`, … that the shipped `tokens.rs` does not
declare; `tokens.rs` (and the parser, which matches on
`TokenName::Character { value, .. }`) instead represent an escaped
metacharacter as a `Character` token whose `is_escaped_metacharacter` flag is
set.  The embedding follows `tokens.rs`: the scanner branch that recognises
`\m` for a metacharacter `m` produces `Character { value := m, escaped := true }`,
with exactly the cursor movement of `scanner/mod.rs`.
-/

/-- `TokenName` from `src/scanner/tokens.rs`. -/
inductive TokenName where
  | Empty : TokenName
  | Character (value : Char) (isEscapedMetacharacter : Bool) : TokenName
  | LeftParen : TokenName
  | RightParen : TokenName
  | Pipe : TokenName
  | Mark : TokenName
  | Star : TokenName
  | Plus : TokenName
  | Dot : TokenName
deriving DecidableEq, Repr

/-- `Token` from `src/scanner/tokens.rs`: a kind plus the source offset. -/
structure Token where
  name : TokenName
  position : Nat
deriving DecidableEq, Repr

/-- The state of `Scanner` from `src/scanner/mod.rs`. -/
structure ScanState where
  source : List Char
  current : Nat
  foundEmptyString : Bool
deriving DecidableEq, Repr

/-- `Scanner::new`. -/
def ScanState.new (source : List Char) : ScanState :=
  { source := source, current := 0, foundEmptyString := false }

/-- `Scanner::get`: character at `index + offset`, `'\x00'` when out of range. -/
def ScanState.get (st : ScanState) (index : Nat) (offset : Int) : Char :=
  if 0 ≤ (index : Int) + offset then
    (st.source.getD ((index : Int) + offset).toNat '\x00')
  else '\x00'

/-- The list of characters recognised after `\` in `Iterator::next` of
`src/scanner/mod.rs` (the eight arms of the inner `match next_char`). -/
def escapableChars : List Char := ['\\', '(', ')', '|', '?', '*', '+', '.']

/-- The part of `Scanner`'s `Iterator::next` that runs after the
empty-token branch has fallen through (`self.found_empty_string = false;`
onwards). By this point `found_empty_string` has been reset to `false`. -/
def scannerRest (st : ScanState) : Option (Token × ScanState) :=
  let st := { st with foundEmptyString := false }
  if st.current < st.source.length then
    let peek := st.get st.current 0
    if peek = '(' then
      some (⟨.LeftParen, st.current⟩, { st with current := st.current + 1 })
    else if peek = ')' then
      some (⟨.RightParen, st.current⟩, { st with current := st.current + 1 })
    else if peek = '|' then
      some (⟨.Pipe, st.current⟩, { st with current := st.current + 1 })
    else if peek = '?' then
      some (⟨.Mark, st.current⟩, { st with current := st.current + 1 })
    else if peek = '*' then
      some (⟨.Star, st.current⟩, { st with current := st.current + 1 })
    else if peek = '+' then
      some (⟨.Plus, st.current⟩, { st with current := st.current + 1 })
    else if peek = '.' then
      some (⟨.Dot, st.current⟩, { st with current := st.current + 1 })
    else if peek = '\\' then
      let nextChar := st.get st.current 1
      if nextChar ∈ escapableChars then
        -- an escaped metacharacter: consume the slash and the metacharacter
        -- (`self.has_next()` holds here, so the extra `advance` always runs)
        some (⟨.Character nextChar true, st.current⟩, { st with current := st.current + 2 })
      else
        -- lone `\`: the token keeps the default `Character` name with value `\`
        some (⟨.Character '\\' false, st.current⟩, { st with current := st.current + 1 })
    else
      some (⟨.Character peek false, st.current⟩, { st with current := st.current + 1 })
  else
    none

/-- `Iterator::next` for `Scanner` (`src/scanner/mod.rs`): first the
empty-token emission branch, then ordinary token generation. -/
def scannerNext (st : ScanState) : Option (Token × ScanState) :=
  let peek := st.get st.current 0
  let prev := st.get st.current (-1)
  let isPrevEscaped := st.get st.current (-2) = '\\'
  if ¬ isPrevEscaped ∧ ¬ st.foundEmptyString then
    if (st.source.isEmpty ∨ (st.source.length = 1 ∧ peek = '|'))
        ∨ (prev = '(' ∧ (peek = '|' ∨ peek = ')'))
        ∨ ((prev = '|' ∧ (peek = ')' ∨ peek = '|'))
            ∨ (peek = '|' ∧ st.current + 1 = st.source.length)) then
      some (⟨.Empty, st.current⟩, { st with foundEmptyString := true })
    else
      scannerRest st
  else
    scannerRest st

/-- Run the scanner to the end of its stream (fuelled; `2 * n + 2` fuel
suffices for a source of length `n`, since each produced token either
advances the cursor or flips `foundEmptyString` from `false` to `true`). -/
def scanAll : Nat → ScanState → List Token
  | 0, _ => []
  | fuel + 1, st =>
    match scannerNext st with
    | none => []
    | some (t, st') => t :: scanAll fuel st'

/-- `Quantifier` from `src/parser/syntax_tree.rs`. -/
inductive Quantifier where
  | None : Quantifier
  | ZeroOrOne : Quantifier
  | ZeroOrMore : Quantifier
  | OneOrMore : Quantifier
deriving DecidableEq, Repr

/-- The expression tree (`ExpressionTag`/`ExpressionType` with the `Regexp`
wrapper of `src/parser/syntax_tree.rs`): `CharacterExpression` with
`value = none` is the dot expression, exactly as the matcher consumes it.
Parent back-references of the source are represented implicitly: the matcher
only ever asks whether the current node is the root (`parent.is_some()`),
which the embedding passes as an explicit flag. -/
inductive Regexp where
  | EmptyExpression : Regexp
  | CharacterExpression (value : Option Char) (quantifier : Quantifier) : Regexp
  | Group (quantifier : Quantifier) (child : Regexp) : Regexp
  | Alternation (children : List Regexp) : Regexp
  | Concatenation (children : List Regexp) : Regexp
deriving Repr, Inhabited

/-- Parse errors: the structured content of the error strings produced in
`src/parser/mod.rs` (the `format_error` helper lives outside the matcher
core and only decorates these with source text and a caret).
`position = none` encodes the source's "at end of pattern" case. -/
inductive ParseError where
  | ExpectedExpressionBefore (ch : Char) (position : Nat) : ParseError
  | ExpectedExpressionAfterLParen (position : Option Nat) : ParseError
  | ExpectedRParenAfterExpression (position : Option Nat) : ParseError
  | UnbalancedRParen (position : Option Nat) : ParseError
deriving DecidableEq, Repr

/-- The state of `Parser` from `src/parser/mod.rs`: the not-yet-fetched
token stream, the current token, and the depth of the `grouping_marks`
stack (only emptiness and push/pop of that stack are ever used). -/
structure PState where
  source : List Char
  tokens : List Token
  current : Option Token
  groupingMarks : Nat
deriving DecidableEq, Repr

/-- `Parser::check`. -/
def pcheck (st : PState) (expected : TokenName) : Bool :=
  match st.current with
  | some t => t.name = expected
  | none => false

/-- Position of the current token, or `none` at end of pattern — the
`(error_index, error_position)` computation repeated in the source. -/
def perrPos (st : PState) : Option Nat :=
  match st.current with
  | some t => some t.position
  | none => none

/-- `Parser::advance`: fetch the next token; a `)` pops a grouping mark and
is a syntax error when none is open; a `(` pushes one. -/
def padvance (st : PState) : Except ParseError PState :=
  let st :=
    match st.tokens with
    | [] => { st with current := Option.none, tokens := [] }
    | t :: ts => { st with current := some t, tokens := ts }
  if pcheck st .RightParen then
    if st.groupingMarks = 0 then
      .error (.UnbalancedRParen (perrPos st))
    else
      .ok { st with groupingMarks := st.groupingMarks - 1 }
  else if pcheck st .LeftParen then
    .ok { st with groupingMarks := st.groupingMarks + 1 }
  else
    .ok st

/-- `Parser::consume`. -/
def pconsume (st : PState) (expected : TokenName) (err : Option Nat → ParseError) :
    Except ParseError PState :=
  if pcheck st expected then padvance st
  else .error (err (perrPos st))

/-- `Quantifier::from(&Option<Token>)` from `src/parser/syntax_tree.rs`. -/
def quantifierOfToken (t : Option Token) : Quantifier :=
  match t with
  | some tok =>
    match tok.name with
    | .Mark => .ZeroOrOne
    | .Star => .ZeroOrMore
    | .Plus => .OneOrMore
    | _ => .None
  | none => .None

/-- `Parser::consume_quantifier`. -/
def consumeQuantifier (st : PState) : Except ParseError (Quantifier × PState) :=
  let q := quantifierOfToken st.current
  if q = .None then .ok (q, st)
  else (padvance st).map (fun st' => (q, st'))

mutual

/-- `Parser::parse_expression` (`Regexp := Concatenation ("|" Regexp)?`).
The result is `none` when no expression could be parsed (end of stream). -/
def parseExpression : Nat → PState → Option (Except ParseError (Option Regexp × PState))
  | 0, _ => none
  | fuel + 1, st =>
    match st.current with
    | Option.none => some (.ok (Option.none, st))
    | some tok =>
      match tok.name with
      | .Empty | .Dot | .Character _ _ | .LeftParen =>
        match parseConcatenation fuel st with
        | none => none
        | some (.error e) => some (.error e)
        | some (.ok (Option.none, st1)) =>
          -- no concatenation parsed: zero children collected
          some (.ok (Option.none, st1))
        | some (.ok (some concatExpr, st1)) =>
          if pcheck st1 .Pipe then
            match padvance st1 with
            | .error e => some (.error e)
            | .ok st2 =>
              match parseExpression fuel st2 with
              | none => none
              | some (.error e) => some (.error e)
              | some (.ok (Option.none, st3)) =>
                some (.ok (some concatExpr, st3))
              | some (.ok (some expr, st3)) =>
                some (.ok (some (.Alternation [concatExpr, expr]), st3))
          else
            some (.ok (some concatExpr, st1))
      | _ =>
        some (.error (.ExpectedExpressionBefore
          (st.source.getD tok.position '\x00') tok.position))

termination_by structural fuel _ => fuel
/-- The `while let Some(primary) = self.parse_primary()?` loop of
`Parser::parse_concatenation`, accumulating children. -/
def parseConcatLoop : Nat → List Regexp → PState →
    Option (Except ParseError (List Regexp × PState))
  | 0, _, _ => none
  | fuel + 1, acc, st =>
    match parsePrimary fuel st with
    | none => none
    | some (.error e) => some (.error e)
    | some (.ok (Option.none, st')) => some (.ok (acc, st'))
    | some (.ok (some p, st')) => parseConcatLoop fuel (acc ++ [p]) st'

termination_by structural fuel _ _ => fuel
/-- `Parser::parse_concatenation` (`Concatenation := Primary+`). -/
def parseConcatenation : Nat → PState →
    Option (Except ParseError (Option Regexp × PState))
  | 0, _ => none
  | fuel + 1, st =>
    match parseConcatLoop fuel [] st with
    | none => none
    | some (.error e) => some (.error e)
    | some (.ok (children, st')) =>
      match children with
      | [] => some (.ok (Option.none, st'))
      | [single] => some (.ok (some single, st'))
      | _ => some (.ok (some (.Concatenation children), st'))

termination_by structural fuel _ => fuel
/-- `Parser::parse_primary`. -/
def parsePrimary : Nat → PState →
    Option (Except ParseError (Option Regexp × PState))
  | 0, _ => none
  | fuel + 1, st =>
    match st.current with
    | Option.none => some (.ok (Option.none, st))
    | some tok =>
      match tok.name with
      | .Empty =>
        match padvance st with
        | .error e => some (.error e)
        | .ok st' => some (.ok (some .EmptyExpression, st'))
      | .Dot =>
        match padvance st with
        | .error e => some (.error e)
        | .ok st' =>
          match consumeQuantifier st' with
          | .error e => some (.error e)
          | .ok (q, st'') =>
            some (.ok (some (.CharacterExpression Option.none q), st''))
      | .Character v _ =>
        match padvance st with
        | .error e => some (.error e)
        | .ok st' =>
          match consumeQuantifier st' with
          | .error e => some (.error e)
          | .ok (q, st'') =>
            some (.ok (some (.CharacterExpression (some v) q), st''))
      | .LeftParen => parseGroup fuel st
      | _ => some (.ok (Option.none, st))

termination_by structural fuel _ => fuel
/-- `Parser::parse_group` (`Group := "(" Regexp ")" Quantifier?`). -/
def parseGroup : Nat → PState →
    Option (Except ParseError (Option Regexp × PState))
  | 0, _ => none
  | fuel + 1, st =>
    match padvance st with
    | .error e => some (.error e)
    | .ok st1 =>
      match parseExpression fuel st1 with
      | none => none
      | some (.error e) => some (.error e)
      | some (.ok (Option.none, st2)) =>
        some (.error (.ExpectedExpressionAfterLParen (perrPos st2)))
      | some (.ok (some expr, st2)) =>
        match pconsume st2 .RightParen .ExpectedRParenAfterExpression with
        | .error e => some (.error e)
        | .ok st3 =>
          match consumeQuantifier st3 with
          | .error e => some (.error e)
          | .ok (q, st4) =>
            some (.ok (some (.Group q expr), st4))

termination_by structural fuel _ => fuel
end

/-- `Parser::parse_source` followed by the public `parse` entry point:
scan the whole source, fetch the first token, parse one expression.
The `None` outcome of `parse_expression` makes `parse_source` panic in the
source; the embedding returns the outer `none` for it (it is unreachable:
the scanner always yields at least one token). Note that `parse_source`
does not require the token stream to be exhausted. -/
def parse (source : List Char) : Option (Except ParseError Regexp) :=
  let st0 : PState :=
    { source := source
      tokens := scanAll (2 * source.length + 2) (ScanState.new source)
      current := Option.none
      groupingMarks := 0 }
  match padvance st0 with
  | .error e => some (.error e)
  | .ok st1 =>
    match parseExpression ((source.length + 4) * (source.length + 4)) st1 with
    | none => none
    | some (.error e) => some (.error e)
    | some (.ok (Option.none, _)) => none
    | some (.ok (some r, _)) => some (.ok r)

/-- `Match` from `src/matcher/mod.rs` (`std::ops::Range<usize>`):
a half-open range; `stop` embeds the Rust field `end`. -/
structure MatchR where
  start : Nat
  stop : Nat
deriving DecidableEq, Repr

/-- `ExpressionBacktrackInfo` from `src/matcher/mod.rs`. -/
structure BTEntry where
  indexSequence : List Nat
  lastMatchStart : Nat
  lastMatchEnd : Nat
  backtrackedToLastMatchStart : Bool
deriving DecidableEq, Repr

/-- The mutable state of `Matcher` (without the immutable `pattern`, which
the embedding passes separately since the source's `pattern` field is
saved and restored around every descent). -/
structure MState where
  target : List Char
  pos : Nat
  matchedTrailingEmptyString : Bool
  patternIndexSequence : List Nat
  backtrackTable : List BTEntry
deriving DecidableEq, Repr

/-- `Matcher::current`: the position, normalised to the target length. -/
def cur (s : MState) : Nat := min s.pos s.target.length

/-- `Matcher::has_next`. -/
def hasNext (s : MState) : Bool := s.pos < s.target.length

/-- `Matcher::dive`: push a `0` on the pattern index sequence. -/
def dive (s : MState) : MState :=
  { s with patternIndexSequence := s.patternIndexSequence ++ [0] }

/-- `Matcher::bubble_up`: pop the pattern index sequence. -/
def bubbleUp (s : MState) : MState :=
  { s with patternIndexSequence := s.patternIndexSequence.dropLast }

/-- `Matcher::appoint_next_child`: increment the top of the sequence
(the source unwraps; the sequence is never empty at its call sites). -/
def appointNextChild (s : MState) : MState :=
  match s.patternIndexSequence.getLast? with
  | some x =>
    { s with patternIndexSequence := s.patternIndexSequence.dropLast ++ [x + 1] }
  | none => s

/-- `*self.pattern_index_sequence.last_mut().unwrap() = i` (concatenation
resume). -/
def setTopIndex (s : MState) (i : Nat) : MState :=
  match s.patternIndexSequence.getLast? with
  | some _ =>
    { s with patternIndexSequence := s.patternIndexSequence.dropLast ++ [i] }
  | none => s

/-- Lexicographic order on index sequences — `Ord for Vec<usize>` used by
`binary_search_by` on the sorted backtrack table. -/
def seqLt : List Nat → List Nat → Bool
  | [], [] => false
  | [], _ :: _ => true
  | _ :: _, [] => false
  | a :: as, b :: bs => if a < b then true else if b < a then false else seqLt as bs

/-- The `iter().find` lookup of an entry by index sequence (used by the
character and group matchers). -/
def findEntry (table : List BTEntry) (key : List Nat) : Option BTEntry :=
  table.find? (fun en => en.indexSequence = key)

/-- Index of the entry with the given sequence — the `Ok` result of
`binary_search_by` on the sorted table. -/
def findEntryIdx (table : List BTEntry) (key : List Nat) : Option Nat :=
  table.findIdx? (fun en => en.indexSequence = key)

/-- Insertion index for a missing key — the `Err` result of
`binary_search_by` on the sorted table: the number of entries ordered
before the key. -/
def insertionIdx (table : List BTEntry) (key : List Nat) : Nat :=
  (table.takeWhile (fun en => seqLt en.indexSequence key)).length

/-- `Vec::insert` at an index. -/
def insertAt (l : List BTEntry) (n : Nat) (a : BTEntry) : List BTEntry :=
  l.take n ++ a :: l.drop n

mutual

/-- `Matcher::supports_backtracking`. -/
def supportsBacktracking : Regexp → Bool
  | .EmptyExpression => false
  | .CharacterExpression _ q => ¬ (q = .None)
  | .Group q child => (¬ (q = .None)) || supportsBacktracking child
  | .Alternation cs => supportsBacktrackingAny cs
  | .Concatenation cs => supportsBacktrackingAny cs

/-- `children.iter().any(supports_backtracking)`. -/
def supportsBacktrackingAny : List Regexp → Bool
  | [] => false
  | c :: rest => supportsBacktracking c || supportsBacktrackingAny rest

end

/-- The bookkeeping epilogue of `Matcher::compute_match`: on a successful
match of a backtracking-capable non-root node, insert or update its
backtrack entry (keyed by the current pattern index sequence). -/
def recordEntry (m : MatchR) (s : MState) : MState :=
  match findEntryIdx s.backtrackTable s.patternIndexSequence with
  | some i =>
    match s.backtrackTable.get? i with
    | some en =>
      { s with backtrackTable := (s.backtrackTable.set i
          { en with lastMatchStart := m.start, lastMatchEnd := m.stop,
                    backtrackedToLastMatchStart := m.start == m.stop }) }
    | none => s
  | none =>
    { s with backtrackTable := (insertAt s.backtrackTable
        (insertionIdx s.backtrackTable s.patternIndexSequence)
        { indexSequence := s.patternIndexSequence
          lastMatchStart := m.start
          lastMatchEnd := m.stop
          backtrackedToLastMatchStart := m.start == m.stop }) }

/-- `Matcher::empty_expression_match`: always the empty range at the
normalised position. -/
def emptyExpressionMatch (s : MState) : Option MatchR × MState :=
  (some ⟨cur s, cur s⟩, s)

/-- The consuming `while` loop of `character_expression_match`: advance
while in bounds, under the match bound, and (for a literal) on the
matched character.  Structurally fuelled; `bound - pos` iterations occur
because the condition requires `pos < bound`. -/
def charConsume (target : List Char) (value : Option Char) (bound : Nat) :
    Nat → Nat → Nat
  | 0, pos => pos
  | fuel + 1, pos =>
    if pos < target.length && pos < bound &&
        (match value with
         | some c => target.getD pos '\x00' == c
         | none => true) then
      charConsume target value bound fuel (pos + 1)
    else pos

/-- The tail of `character_expression_match`, once the consuming loop has
produced the new cursor `pos'`: classify the range `[current, pos')`. -/
def charStep (q : Quantifier) (s : MState) (pos' : Nat) : Option MatchR × MState :=
  let start := cur s
  let s' := { s with pos := pos' }
  let stop := cur s'
  if start = stop then
    match q with
    | .None | .OneOrMore => (Option.none, s')
    | _ => emptyExpressionMatch s'
  else
    (some ⟨start, stop⟩, s')

/-- `Matcher::character_expression_match` (both the literal and the dot
case; `value = none` is the dot). -/
def characterExpressionMatch (value : Option Char) (q : Quantifier)
    (s : MState) : Option MatchR × MState :=
  let matchBound :=
    match findEntry s.backtrackTable s.patternIndexSequence with
    | some info => info.lastMatchEnd - 1
    | none =>
      match q with
      | .None | .ZeroOrOne => s.pos + 1
      | _ => s.target.length
  charStep q s (charConsume s.target value matchBound (s.target.length + matchBound) s.pos)

/-- The re-arming step at the head of the concatenation loop: when the
current child already has a table position, its entry has backtracked to
its last match start, and a backtrackable predecessor exists, reset the
entry so the child can match again. -/
def rearmChild (tableInfoPos : Option Nat) (prevSome : Bool) (s : MState) : MState :=
  match tableInfoPos with
  | some tp =>
    match s.backtrackTable.get? tp with
    | some en =>
      if prevSome && en.backtrackedToLastMatchStart then
        { s with backtrackTable := (s.backtrackTable.set tp
            { en with lastMatchStart := cur s,
                      lastMatchEnd := s.target.length,
                      backtrackedToLastMatchStart := false }) }
      else s
    | none => s
  | none => s

/-- The `prev` computation in `concatenation_match`: the nearest preceding
sibling (below the given child index) holding a backtrack-table position
whose entry has not backtracked to its last match start; yields the sibling
index and the stored table position. -/
def findPrev (children : List (Regexp × Option Nat)) (table : List BTEntry) :
    Nat → Option (Nat × Nat)
  | 0 => Option.none
  | k + 1 =>
    match (children.getD k (.EmptyExpression, Option.none)).2 with
    | some tp =>
      if (match table.get? tp with
          | some en => !en.backtrackedToLastMatchStart
          | none => false) then some (k, tp)
      else findPrev children table k
    | none => findPrev children table k

mutual

/-- `Matcher::compute_match`: dispatch on the node, then record backtrack
information for successful non-root backtracking-capable nodes.
`isRoot` embeds `self.pattern.parent.is_none()` (the parser links a parent
into every non-root node).  The outer `none` means the fuel ran out; every
outcome of the source is a `some`. -/
def computeMatch : Nat → Regexp → Bool → MState → Option (Option MatchR × MState)
  | 0, _, _, _ => none
  | fuel + 1, e, isRoot, s =>
    let base : Option (Option MatchR × MState) :=
      match e with
      | .EmptyExpression => some (emptyExpressionMatch s)
      | .CharacterExpression v q => some (characterExpressionMatch v q s)
      | .Group q child => groupMatch fuel q child s
      | .Alternation cs => alternationMatch fuel cs s
      | .Concatenation cs => concatenationMatch fuel cs s
    match base with
    | none => none
    | some (some m, s') =>
      if supportsBacktracking e && !isRoot then some (some m, recordEntry m s')
      else some (some m, s')
    | some (Option.none, s') => some (Option.none, s')

termination_by structural fuel _ _ _ => fuel
/-- The `while let Some(new_match) = self.compute_match()` loop of
`group_match`, carrying the match end and the matched-empty-string guard. -/
def groupLoop : Nat → Regexp → Nat → Nat → Bool → MState → Option (Nat × Bool × MState)
  | 0, _, _, _, _, _ => none
  | fuel + 1, child, bound, endV, matchedEmpty, s =>
    match computeMatch fuel child false s with
    | none => none
    | some (Option.none, s') => some (endV, matchedEmpty, s')
    | some (some m, s') =>
      if bound < s'.pos then
        -- match bound exceeded: roll back to the last good end and stop
        some (endV, matchedEmpty, { s' with pos := endV })
      else if (m.start == m.stop) && matchedEmpty then
        some (endV, matchedEmpty, s')
      else
        groupLoop fuel child bound m.stop (m.start == m.stop) s'

termination_by structural fuel _ _ _ _ _ => fuel
/-- `Matcher::group_match`. -/
def groupMatch : Nat → Quantifier → Regexp → MState → Option (Option MatchR × MState)
  | 0, _, _, _ => none
  | fuel + 1, q, child, s =>
    let bound :=
      match findEntry s.backtrackTable s.patternIndexSequence with
      | some info => info.lastMatchEnd - 1
      | none => s.target.length
    let s1 := dive s
    let start := cur s1
    match groupLoop fuel child bound start false s1 with
    | none => none
    | some (endV, matchedEmpty, s2) =>
      if start == endV && !matchedEmpty then
        match q with
        | .None | .OneOrMore => some (Option.none, bubbleUp s2)
        | _ =>
          let r := emptyExpressionMatch s2
          some (r.1, bubbleUp r.2)
      else
        some (some ⟨start, endV⟩, bubbleUp s2)

termination_by structural fuel _ _ _ => fuel
/-- The `for child in children` loop of `alternation_match`: try children
in order from the alternation's entry position; the first success wins. -/
def altLoop : Nat → List Regexp → Nat → MState → Option (Option MatchR × MState)
  | 0, _, _, _ => none
  | _ + 1, [], _, s => some (Option.none, s)
  | fuel + 1, c :: rest, oldPos, s =>
    match computeMatch fuel c false s with
    | none => none
    | some (some m, s') => some (some m, s')
    | some (Option.none, s') =>
      altLoop fuel rest oldPos (appointNextChild { s' with pos := oldPos })

termination_by structural fuel _ _ _ => fuel
/-- `Matcher::alternation_match`. -/
def alternationMatch : Nat → List Regexp → MState → Option (Option MatchR × MState)
  | 0, _, _ => none
  | fuel + 1, cs, s =>
    let s1 := dive s
    let oldPos := cur s1
    match altLoop fuel cs oldPos s1 with
    | none => none
    | some (r, s2) => some (r, bubbleUp s2)

termination_by structural fuel _ _ => fuel
/-- The child-driving loop of `concatenation_match`: each list element
pairs a child with its recorded backtrack-table position (if any);
`mre` is `match_region_end`. -/
def concatLoop : Nat → List (Regexp × Option Nat) → Nat → Nat → Nat → MState →
    Option (Option MatchR × MState)
  | 0, _, _, _, _, _ => none
  | fuel + 1, children, childIndex, oldPos, mre, s =>
    if childIndex < children.length then
      let child := (children.getD childIndex (.EmptyExpression, Option.none)).1
      let tableInfoPos := (children.getD childIndex (.EmptyExpression, Option.none)).2
      let prev := findPrev children s.backtrackTable childIndex
      let s := rearmChild tableInfoPos prev.isSome s
      match computeMatch fuel child false s with
      | none => none
      | some (some m, s') =>
        let children' :=
          if tableInfoPos = Option.none && supportsBacktracking child then
            match findEntryIdx s'.backtrackTable s'.patternIndexSequence with
            | some tp => children.set childIndex (child, some tp)
            | none => children
          else children
        concatLoop fuel children' (childIndex + 1) oldPos m.stop (appointNextChild s')
      | some (Option.none, s') =>
        match prev with
        | some (ci, tei) =>
          match s'.backtrackTable.get? tei with
          | some en =>
            concatLoop fuel children ci oldPos mre
              (setTopIndex { s' with pos := en.lastMatchStart } ci)
          | none => none
        | none => some (Option.none, { s' with pos := oldPos })
    else
      some (some ⟨oldPos, mre⟩, s)

termination_by structural fuel _ _ _ _ _ => fuel
/-- `Matcher::concatenation_match`. -/
def concatenationMatch : Nat → List Regexp → MState → Option (Option MatchR × MState)
  | 0, _, _ => none
  | fuel + 1, cs, s =>
    let s1 := dive s
    let oldPos := cur s1
    match concatLoop fuel (cs.map (fun c => (c, Option.none))) 0 oldPos oldPos s1 with
    | none => none
    | some (r, s2) => some (r, bubbleUp s2)

termination_by structural fuel _ _ => fuel
end

/-- The search loop of the matcher's `Iterator::next`: attempt a match at
the current position, clear the backtrack table between attempts, slide
one character right on failure, and advance past an empty match. -/
def nextLoop : Nat → Regexp → MState → Option (Option MatchR × MState)
  | 0, _, _ => none
  | fuel + 1, pattern, s =>
    match computeMatch fuel pattern true s with
    | none => none
    | some (attempt, s') =>
      let s' := { s' with backtrackTable := [] }
      match attempt with
      | Option.none =>
        if hasNext s' then nextLoop fuel pattern { s' with pos := s'.pos + 1 }
        else some (Option.none, s')
      | some m =>
        if m.start == m.stop then some (some m, { s' with pos := s'.pos + 1 })
        else some (some m, s')

/-- `Iterator::next` for `Matcher` (`src/matcher/mod.rs`): the result
`some (none, _)` is the source's `None` (end of iteration); the outer
`none` again means insufficient fuel. -/
def matcherNext (fuel : Nat) (pattern : Regexp) (s : MState) :
    Option (Option MatchR × MState) :=
  if s.target.length < s.pos ∧ s.matchedTrailingEmptyString then
    some (Option.none, s)
  else
    let s :=
      if s.target.length ≤ s.pos then { s with matchedTrailingEmptyString := true }
      else s
    let s := dive s
    match nextLoop fuel pattern s with
    | none => none
    | some (r, s') => some (r, bubbleUp s')

/-- Iterate the matcher, collecting yielded matches until it signals end of
iteration; `steps` bounds the number of `next` calls. -/
def runMatcher (fuel : Nat) (pattern : Regexp) (s : MState) : Nat → Option (List MatchR)
  | 0 => none
  | steps + 1 =>
    match matcherNext fuel pattern s with
    | none => none
    | some (Option.none, _) => some []
    | some (some m, s') => (runMatcher fuel pattern s' steps).map (fun l => m :: l)

/-- The `Matcher` state built by `Matcher::new` for a target. -/
def initState (target : List Char) : MState :=
  { target := target
    pos := 0
    matchedTrailingEmptyString := false
    patternIndexSequence := []
    backtrackTable := [] }

/-- `Matcher::new`: compile the pattern and bind the target; `none` when
compilation fails (the source returns `Err`). -/
def matcherNew (pattern target : List Char) : Option (Regexp × MState) :=
  match parse pattern with
  | some (.ok r) => some (r, initState target)
  | _ => none

/-- Compile a pattern, run the matcher over a target, and collect all
matches (`none` on compile error or insufficient fuel/steps). -/
def allMatches (fuel : Nat) (pattern target : List Char) (steps : Nat) :
    Option (List MatchR) :=
  match matcherNew pattern target with
  | some (r, s) => runMatcher fuel r s steps
  | none => none

@[simp] lemma cur_def (s : MState) : cur s = min s.pos s.target.length := rfl

@[simp] lemma dive_target (s : MState) : (dive s).target = s.target := rfl
@[simp] lemma dive_pos (s : MState) : (dive s).pos = s.pos := rfl
@[simp] lemma dive_flag (s : MState) :
    (dive s).matchedTrailingEmptyString = s.matchedTrailingEmptyString := rfl
@[simp] lemma dive_pis (s : MState) :
    (dive s).patternIndexSequence = s.patternIndexSequence ++ [0] := rfl

@[simp] lemma bubbleUp_target (s : MState) : (bubbleUp s).target = s.target := rfl
@[simp] lemma bubbleUp_pos (s : MState) : (bubbleUp s).pos = s.pos := rfl
@[simp] lemma bubbleUp_flag (s : MState) :
    (bubbleUp s).matchedTrailingEmptyString = s.matchedTrailingEmptyString := rfl
@[simp] lemma bubbleUp_table (s : MState) : (bubbleUp s).backtrackTable = s.backtrackTable := rfl
@[simp] lemma bubbleUp_pis (s : MState) :
    (bubbleUp s).patternIndexSequence = s.patternIndexSequence.dropLast := rfl

lemma appointNextChild_target (s : MState) : (appointNextChild s).target = s.target := by
  unfold appointNextChild; cases s.patternIndexSequence.getLast? <;> rfl
lemma appointNextChild_pos (s : MState) : (appointNextChild s).pos = s.pos := by
  unfold appointNextChild; cases s.patternIndexSequence.getLast? <;> rfl
lemma appointNextChild_flag (s : MState) :
    (appointNextChild s).matchedTrailingEmptyString = s.matchedTrailingEmptyString := by
  unfold appointNextChild; cases s.patternIndexSequence.getLast? <;> rfl
lemma appointNextChild_table (s : MState) :
    (appointNextChild s).backtrackTable = s.backtrackTable := by
  unfold appointNextChild; cases s.patternIndexSequence.getLast? <;> rfl
lemma appointNextChild_pis_dropLast (s : MState) :
    (appointNextChild s).patternIndexSequence.dropLast = s.patternIndexSequence.dropLast := by
  unfold appointNextChild
  cases h : s.patternIndexSequence.getLast? with
  | none => rfl
  | some x =>
    have hne : s.patternIndexSequence ≠ [] := by
      intro hnil; rw [hnil] at h; simp at h
    simp [List.dropLast_concat]

lemma setTopIndex_target (s : MState) (i : Nat) : (setTopIndex s i).target = s.target := by
  unfold setTopIndex; cases s.patternIndexSequence.getLast? <;> rfl
lemma setTopIndex_pos (s : MState) (i : Nat) : (setTopIndex s i).pos = s.pos := by
  unfold setTopIndex; cases s.patternIndexSequence.getLast? <;> rfl
lemma setTopIndex_flag (s : MState) (i : Nat) :
    (setTopIndex s i).matchedTrailingEmptyString = s.matchedTrailingEmptyString := by
  unfold setTopIndex; cases s.patternIndexSequence.getLast? <;> rfl
lemma setTopIndex_table (s : MState) (i : Nat) :
    (setTopIndex s i).backtrackTable = s.backtrackTable := by
  unfold setTopIndex; cases s.patternIndexSequence.getLast? <;> rfl
lemma setTopIndex_pis_dropLast (s : MState) (i : Nat) :
    (setTopIndex s i).patternIndexSequence.dropLast = s.patternIndexSequence.dropLast := by
  unfold setTopIndex
  cases h : s.patternIndexSequence.getLast? with
  | none => rfl
  | some x => simp [List.dropLast_concat]

lemma charConsume_ge (target : List Char) (v : Option Char) (bound : Nat) :
    ∀ fuel pos, pos ≤ charConsume target v bound fuel pos := by
  intro fuel
  induction fuel with
  | zero => intro pos; simp [charConsume]
  | succ f ih =>
    intro pos
    unfold charConsume
    split
    · exact Nat.le_trans (Nat.le_succ pos) (ih (pos + 1))
    · exact Nat.le_refl pos

lemma charConsume_le_len (target : List Char) (v : Option Char) (bound : Nat) :
    ∀ fuel pos, pos ≤ target.length → charConsume target v bound fuel pos ≤ target.length := by
  intro fuel
  induction fuel with
  | zero => intro pos h; simpa [charConsume] using h
  | succ f ih =>
    intro pos h
    unfold charConsume
    split
    · rename_i hcond
      have hlt : pos < target.length := by
        have := hcond
        simp only [Bool.and_eq_true, decide_eq_true_eq] at this
        exact this.1.1
      exact ih (pos + 1) hlt
    · exact h

lemma charConsume_stay (target : List Char) (v : Option Char) (bound : Nat) :
    ∀ fuel pos, charConsume target v bound fuel pos = pos ∨
      (pos < target.length ∧ pos + 1 ≤ charConsume target v bound fuel pos) := by
  intro fuel pos
  cases fuel with
  | zero => exact Or.inl rfl
  | succ f =>
    unfold charConsume
    split
    · rename_i hcond
      have hlt : pos < target.length := by
        simp only [Bool.and_eq_true, decide_eq_true_eq] at hcond
        exact hcond.1.1
      exact Or.inr ⟨hlt, charConsume_ge target v bound f (pos + 1)⟩
    · exact Or.inl rfl

lemma charStep_spec (q : Quantifier) (s : MState) (pos' : Nat)
    (r : Option MatchR) (s' : MState)
    (h : charStep q s pos' = (r, s'))
    (hge : s.pos ≤ pos')
    (hstay : pos' = s.pos ∨ (s.pos < s.target.length ∧ s.pos + 1 ≤ pos'))
    (hle : s.pos ≤ s.target.length → pos' ≤ s.target.length) :
    s'.target = s.target ∧
    s'.patternIndexSequence = s.patternIndexSequence ∧
    s'.matchedTrailingEmptyString = s.matchedTrailingEmptyString ∧
    s'.backtrackTable = s.backtrackTable ∧
    s.pos ≤ s'.pos ∧
    (r = Option.none → s'.pos = s.pos) ∧
    (∀ m, r = some m →
      m.start = cur s ∧ m.stop = cur s' ∧
      (s.pos ≤ s.target.length → s'.pos = m.stop)) := by
  unfold charStep emptyExpressionMatch at h
  have hnomove : min s.pos s.target.length = min pos' s.target.length → pos' = s.pos := by
    intro hmin
    rcases hstay with h0 | ⟨hlt, hsucc⟩
    · exact h0
    · exfalso
      have h1 : min s.pos s.target.length = s.pos := Nat.min_eq_left (Nat.le_of_lt hlt)
      have h2 : s.pos + 1 ≤ min pos' s.target.length :=
        le_min hsucc (Nat.succ_le_of_lt hlt)
      omega
  simp only [cur_def] at h
  split at h
  · rename_i hif
    have hpp : pos' = s.pos := hnomove hif
    split at h
    all_goals (
      simp only [Prod.mk.injEq] at h
      obtain ⟨hr, hs⟩ := h
      subst hs)
    all_goals
      refine ⟨rfl, rfl, rfl, rfl, hge, fun hnone => hpp, fun m hm => ?_⟩
    · rw [← hr] at hm; exact absurd hm (by simp)
    · rw [← hr] at hm; exact absurd hm (by simp)
    · rw [← hr] at hm
      simp only [Option.some.injEq] at hm
      subst hm
      refine ⟨by simp [cur_def, hpp], rfl, fun hlen => ?_⟩
      simp only [cur_def, hpp]
      omega
  · rename_i hif
    simp only [Prod.mk.injEq] at h
    obtain ⟨hr, hs⟩ := h
    subst hs
    refine ⟨rfl, rfl, rfl, rfl, hge, fun hnone => by rw [← hr] at hnone; simp at hnone,
      fun m hm => ?_⟩
    rw [← hr] at hm
    simp only [Option.some.injEq] at hm
    subst hm
    refine ⟨by simp [cur_def], by simp [cur_def], fun hlen => ?_⟩
    simp only [cur_def]
    exact (Nat.min_eq_left (hle hlen)).symm

lemma charExpr_spec (v : Option Char) (q : Quantifier) (s : MState)
    (r : Option MatchR) (s' : MState)
    (h : characterExpressionMatch v q s = (r, s')) :
    s'.target = s.target ∧
    s'.patternIndexSequence = s.patternIndexSequence ∧
    s'.matchedTrailingEmptyString = s.matchedTrailingEmptyString ∧
    s'.backtrackTable = s.backtrackTable ∧
    s.pos ≤ s'.pos ∧
    (r = Option.none → s'.pos = s.pos) ∧
    (∀ m, r = some m →
      m.start = cur s ∧ m.stop = cur s' ∧
      (s.pos ≤ s.target.length → s'.pos = m.stop)) := by
  unfold characterExpressionMatch at h
  exact charStep_spec q s _ r s' h (charConsume_ge _ _ _ _ _)
    (charConsume_stay _ _ _ _ _) (fun hh => charConsume_le_len _ _ _ _ _ hh)

lemma emptyExpr_spec (s : MState) :
    (emptyExpressionMatch s).2 = s ∧
    (emptyExpressionMatch s).1 = some ⟨cur s, cur s⟩ := ⟨rfl, rfl⟩

lemma recordEntry_target (m : MatchR) (s : MState) : (recordEntry m s).target = s.target := by
  unfold recordEntry
  split
  · split <;> rfl
  · rfl
lemma recordEntry_pos (m : MatchR) (s : MState) : (recordEntry m s).pos = s.pos := by
  unfold recordEntry
  split
  · split <;> rfl
  · rfl
lemma recordEntry_pis (m : MatchR) (s : MState) :
    (recordEntry m s).patternIndexSequence = s.patternIndexSequence := by
  unfold recordEntry
  split
  · split <;> rfl
  · rfl
lemma recordEntry_flag (m : MatchR) (s : MState) :
    (recordEntry m s).matchedTrailingEmptyString = s.matchedTrailingEmptyString := by
  unfold recordEntry
  split
  · split <;> rfl
  · rfl

lemma mem_insertAt {l : List BTEntry} {n : Nat} {a x : BTEntry}
    (h : x ∈ insertAt l n a) : x ∈ l ∨ x = a := by
  unfold insertAt at h
  rcases List.mem_append.mp h with h1 | h1
  · exact Or.inl (List.mem_of_mem_take h1)
  · rcases List.mem_cons.mp h1 with h2 | h2
    · exact Or.inr h2
    · exact Or.inl (List.mem_of_mem_drop h2)

lemma recordEntry_table_start {a : Nat} (m : MatchR) (s : MState)
    (hTab : ∀ E ∈ s.backtrackTable, a ≤ E.lastMatchStart) (hm : a ≤ m.start) :
    ∀ E ∈ (recordEntry m s).backtrackTable, a ≤ E.lastMatchStart := by
  unfold recordEntry
  split
  · split
    · intro E hE
      simp only at hE
      rcases List.mem_or_eq_of_mem_set hE with h | h
      · exact hTab E h
      · subst h; exact hm
    · exact hTab
  · intro E hE
    simp only at hE
    rcases mem_insertAt hE with h | h
    · exact hTab E h
    · subst h; exact hm

/-- Well-formedness of the backtrack table: every recorded last-match start
lies within the target (starts are always recorded from normalised
cursors). -/
def WFtab (s : MState) : Prop :=
  ∀ E ∈ s.backtrackTable, E.lastMatchStart ≤ s.target.length

/-- The common conclusion shape for all node matchers. -/
def NodeConcl (s : MState) (r : Option MatchR) (s' : MState) : Prop :=
  s'.target = s.target ∧
  s'.patternIndexSequence = s.patternIndexSequence ∧
  s'.matchedTrailingEmptyString = s.matchedTrailingEmptyString ∧
  WFtab s' ∧
  (r = Option.none → cur s' = cur s ∧ (s.pos ≤ s.target.length → s'.pos = s.pos)) ∧
  (∀ m, r = some m → m.start = cur s ∧ m.stop = cur s' ∧
    (s.pos ≤ s.target.length → s'.pos = m.stop))

def SpecCM (fuel : Nat) : Prop :=
  ∀ e isRoot s r s', computeMatch fuel e isRoot s = some (r, s') → WFtab s →
    NodeConcl s r s'

def SpecGM (fuel : Nat) : Prop :=
  ∀ q child s r s', groupMatch fuel q child s = some (r, s') → WFtab s →
    NodeConcl s r s'

def SpecAM (fuel : Nat) : Prop :=
  ∀ cs s r s', alternationMatch fuel cs s = some (r, s') → WFtab s →
    NodeConcl s r s'

def SpecCCM (fuel : Nat) : Prop :=
  ∀ cs s r s', concatenationMatch fuel cs s = some (r, s') → WFtab s →
    NodeConcl s r s'

def SpecGL (fuel : Nat) : Prop :=
  ∀ child bound endV me s endV' me' s',
    groupLoop fuel child bound endV me s = some (endV', me', s') →
    WFtab s →
    cur s = endV →
    s'.target = s.target ∧
    s'.patternIndexSequence = s.patternIndexSequence ∧
    s'.matchedTrailingEmptyString = s.matchedTrailingEmptyString ∧
    WFtab s' ∧
    cur s' = endV' ∧
    (s.pos ≤ s.target.length → s.pos = endV → s'.pos = endV')

def SpecAL (fuel : Nat) : Prop :=
  ∀ cs oldPos s r s',
    altLoop fuel cs oldPos s = some (r, s') →
    WFtab s →
    cur s = oldPos →
    s'.target = s.target ∧
    s'.patternIndexSequence.dropLast = s.patternIndexSequence.dropLast ∧
    s'.matchedTrailingEmptyString = s.matchedTrailingEmptyString ∧
    WFtab s' ∧
    (r = Option.none →
      cur s' = oldPos ∧ (s.pos ≤ s.target.length → s.pos = oldPos → s'.pos = oldPos)) ∧
    (∀ m, r = some m → m.start = oldPos ∧ m.stop = cur s' ∧
      (s.pos ≤ s.target.length → s.pos = oldPos → s'.pos = m.stop))

def SpecCL (fuel : Nat) : Prop :=
  ∀ children childIndex oldPos mre s r s',
    concatLoop fuel children childIndex oldPos mre s = some (r, s') →
    WFtab s →
    oldPos ≤ s.target.length →
    (childIndex < children.length ∨
      (mre = cur s ∧ (s.pos ≤ s.target.length → s.pos = mre))) →
    s'.target = s.target ∧
    s'.patternIndexSequence.dropLast = s.patternIndexSequence.dropLast ∧
    s'.matchedTrailingEmptyString = s.matchedTrailingEmptyString ∧
    WFtab s' ∧
    (r = Option.none → s'.pos = oldPos) ∧
    (∀ m, r = some m → m.start = oldPos ∧ m.stop = cur s' ∧
      (s.pos ≤ s.target.length → s'.pos = m.stop))

def SpecAllAt (fuel : Nat) : Prop :=
  SpecCM fuel ∧ SpecGM fuel ∧ SpecAM fuel ∧ SpecCCM fuel ∧
  SpecGL fuel ∧ SpecAL fuel ∧ SpecCL fuel

lemma recordEntry_table_pred (P : Nat → Prop) (m : MatchR) (s : MState)
    (hTab : ∀ E ∈ s.backtrackTable, P E.lastMatchStart) (hm : P m.start) :
    ∀ E ∈ (recordEntry m s).backtrackTable, P E.lastMatchStart := by
  unfold recordEntry
  split
  · split
    · intro E hE
      simp only at hE
      rcases List.mem_or_eq_of_mem_set hE with h | h
      · exact hTab E h
      · subst h; exact hm
    · exact hTab
  · intro E hE
    simp only at hE
    rcases mem_insertAt hE with h | h
    · exact hTab E h
    · subst h; exact hm

lemma cur_recordEntry (m : MatchR) (s : MState) : cur (recordEntry m s) = cur s := by
  simp [cur_def, recordEntry_pos, recordEntry_target]

lemma specGL_step (fuel : Nat)
    (ihCM : ∀ g, g < fuel → SpecCM g)
    (ihGL : ∀ g, g < fuel → SpecGL g) : SpecGL fuel := by
  cases fuel with
  | zero =>
    intro child bound endV me s endV' me' s' h
    simp [groupLoop] at h
  | succ f =>
    intro child bound endV me s endV' me' s' h hWF hcur
    have hf : f < f + 1 := Nat.lt_succ_self f
    unfold groupLoop at h
    split at h
    · exact absurd h (by simp)
    · -- inner match failed: loop exits with current values
      rename_i s₀ hcm
      simp only [Option.some.injEq, Prod.mk.injEq] at h
      obtain ⟨he, hme, hs⟩ := h
      subst he; subst hme; subst hs
      have C := ihCM f hf child false s _ _ hcm hWF
      obtain ⟨hT, hP, hF, hW, hfail, _⟩ := C
      obtain ⟨hc0, hp0⟩ := hfail rfl
      exact ⟨hT, hP, hF, hW, hc0.trans hcur, fun hlen hpe => (hp0 hlen).trans hpe⟩
    · -- inner match succeeded
      rename_i m s₀ hcm
      have C := ihCM f hf child false s _ _ hcm hWF
      obtain ⟨hT, hP, hF, hW, _, hsucc⟩ := C
      obtain ⟨hms, hmt, hmp⟩ := hsucc m rfl
      have hendlen : endV ≤ s.target.length := by
        rw [← hcur]; simp [cur_def]
      split at h
      · -- bound exceeded: roll back to endV
        simp only [Option.some.injEq, Prod.mk.injEq] at h
        obtain ⟨he, hme, hs⟩ := h
        subst he; subst hme; subst hs
        refine ⟨hT, hP, hF, hW, ?_, fun hlen hpe => rfl⟩
        simp [cur_def, hT]
        omega
      · split at h
        · -- empty match repeated: stop
          simp only [Option.some.injEq, Prod.mk.injEq] at h
          obtain ⟨he, hme, hs⟩ := h
          subst he; subst hme; subst hs
          rename_i hcond2
          have hmseq : m.start = m.stop := by
            simp only [Bool.and_eq_true, beq_iff_eq] at hcond2
            exact hcond2.1
          refine ⟨hT, hP, hF, hW, ?_, fun hlen hpe => ?_⟩
          · rw [hmt] at hmseq
            rw [← hmseq, hms, hcur]
          · have hstop : m.stop = endV := by
              rw [← hmseq, hms, cur_def]
              omega
            rw [hmp hlen, hstop]
        · -- continue looping with the new end value
          have G := ihGL f hf child bound m.stop (m.start == m.stop) s₀ endV' me' s' h
            hW hmt.symm
          obtain ⟨gT, gP, gF, gW, gc, gp⟩ := G
          refine ⟨gT.trans hT, gP.trans hP, gF.trans hF, gW, gc, fun hlen hpe => ?_⟩
          have h1 : s₀.pos = m.stop := hmp hlen
          have hlen0 : s₀.pos ≤ s₀.target.length := by
            rw [h1, hmt]
            simp [cur_def]
          exact gp hlen0 h1

lemma rearmChild_target (tp : Option Nat) (b : Bool) (s : MState) :
    (rearmChild tp b s).target = s.target := by
  unfold rearmChild
  split
  · split
    · split <;> rfl
    · rfl
  · rfl

lemma rearmChild_pos (tp : Option Nat) (b : Bool) (s : MState) :
    (rearmChild tp b s).pos = s.pos := by
  unfold rearmChild
  split
  · split
    · split <;> rfl
    · rfl
  · rfl

lemma rearmChild_pis (tp : Option Nat) (b : Bool) (s : MState) :
    (rearmChild tp b s).patternIndexSequence = s.patternIndexSequence := by
  unfold rearmChild
  split
  · split
    · split <;> rfl
    · rfl
  · rfl

lemma rearmChild_flag (tp : Option Nat) (b : Bool) (s : MState) :
    (rearmChild tp b s).matchedTrailingEmptyString = s.matchedTrailingEmptyString := by
  unfold rearmChild
  split
  · split
    · split <;> rfl
    · rfl
  · rfl

lemma rearmChild_WFtab (tp : Option Nat) (b : Bool) (s : MState) (hWF : WFtab s) :
    WFtab (rearmChild tp b s) := by
  unfold rearmChild WFtab
  split
  · split
    · split
      · intro E hE
        simp only at hE ⊢
        rcases List.mem_or_eq_of_mem_set hE with h | h
        · exact hWF E h
        · subst h
          simp [cur_def]
      · exact hWF
    · exact hWF
  · exact hWF

lemma findPrev_lt (children : List (Regexp × Option Nat)) (table : List BTEntry) :
    ∀ n k tp, findPrev children table n = some (k, tp) → k < n := by
  intro n
  induction n with
  | zero => intro k tp h; simp [findPrev] at h
  | succ n ih =>
    intro k tp h
    unfold findPrev at h
    split at h
    · split at h
      · simp only [Option.some.injEq, Prod.mk.injEq] at h
        omega
      · exact Nat.lt_trans (ih k tp h) (Nat.lt_succ_self n)
    · exact Nat.lt_trans (ih k tp h) (Nat.lt_succ_self n)

lemma specCL_step (fuel : Nat)
    (ihCM : ∀ g, g < fuel → SpecCM g)
    (ihCL : ∀ g, g < fuel → SpecCL g) : SpecCL fuel := by
  cases fuel with
  | zero =>
    intro children childIndex oldPos mre s r s' h
    simp [concatLoop] at h
  | succ f =>
    intro children childIndex oldPos mre s r s' h hWF holdlen hH
    have hf : f < f + 1 := Nat.lt_succ_self f
    unfold concatLoop at h
    split at h
    case isFalse hidx =>
      simp only [Option.some.injEq, Prod.mk.injEq] at h
      obtain ⟨hr, hs⟩ := h
      subst hs
      rcases hH with hlt | ⟨hmre, hmrep⟩
      · exact absurd hlt hidx
      refine ⟨rfl, rfl, rfl, hWF, fun hnone => by rw [← hr] at hnone; simp at hnone,
        fun m' hm' => ?_⟩
      rw [← hr] at hm'
      simp only [Option.some.injEq] at hm'
      subst hm'
      exact ⟨rfl, hmre, fun hlen => hmrep hlen⟩
    case isTrue hidx =>
      set child := (children.getD childIndex (.EmptyExpression, Option.none)).1 with hchild
      set tableInfoPos := (children.getD childIndex (.EmptyExpression, Option.none)).2
        with htip
      set prev := findPrev children s.backtrackTable childIndex with hprev
      set s₂ := rearmChild tableInfoPos prev.isSome s with hs₂
      clear_value prev
      have h2T : s₂.target = s.target := rearmChild_target _ _ _
      have h2pos : s₂.pos = s.pos := rearmChild_pos _ _ _
      have h2P : s₂.patternIndexSequence = s.patternIndexSequence := rearmChild_pis _ _ _
      have h2F : s₂.matchedTrailingEmptyString = s.matchedTrailingEmptyString :=
        rearmChild_flag _ _ _
      have h2W : WFtab s₂ := rearmChild_WFtab _ _ _ hWF
      dsimp only [] at h
      split at h
      · exact absurd h (by simp)
      · -- the child matched: move to the next sibling
        rename_i m s₀ hcm
        have C := ihCM f hf child false s₂ _ _ hcm h2W
        obtain ⟨hT, hP, hF, hW, _, hsucc⟩ := C
        obtain ⟨hms, hmt, hmp⟩ := hsucc m rfl
        set s₃ := appointNextChild s₀ with hs₃
        have h3T : s₃.target = s.target := by
          rw [hs₃, appointNextChild_target, hT, h2T]
        have h3pos : s₃.pos = s₀.pos := by rw [hs₃, appointNextChild_pos]
        have h3W : WFtab s₃ := by
          intro E hE
          rw [hs₃, appointNextChild_table] at hE
          rw [hs₃, appointNextChild_target]
          exact hW E hE
        have h3cur : cur s₃ = cur s₀ := by
          simp only [cur_def, hs₃, appointNextChild_pos, appointNextChild_target]
        have hstop0 : s₀.pos ≤ s₀.target.length → s₀.pos = m.stop := by
          intro hl
          rw [hmt]
          simp only [cur_def]
          omega
        have IH := ihCL f hf _ (childIndex + 1) oldPos m.stop s₃ r s' h h3W
          (h3T ▸ holdlen)
          (Or.inr ⟨by rw [h3cur, hmt], fun hlen3 => by
            rw [h3pos] at hlen3 ⊢
            rw [hs₃, appointNextChild_target] at hlen3
            exact hstop0 hlen3⟩)
        obtain ⟨aT, aP, aF, aW, afail, asucc⟩ := IH
        have hPd : s₃.patternIndexSequence.dropLast = s.patternIndexSequence.dropLast := by
          rw [hs₃, appointNextChild_pis_dropLast, hP, h2P]
        have hFd : s₃.matchedTrailingEmptyString = s.matchedTrailingEmptyString := by
          rw [hs₃, appointNextChild_flag, hF, h2F]
        refine ⟨aT.trans h3T, aP.trans hPd, aF.trans hFd, aW, afail, fun m' hm' => ?_⟩
        obtain ⟨ams, amt, amp⟩ := asucc m' hm'
        refine ⟨ams, amt, fun hlen => ?_⟩
        have h20 : s₀.pos = m.stop := hmp (by rw [h2pos, h2T]; exact hlen)
        have h3len : s₃.pos ≤ s₃.target.length := by
          rw [h3pos, h20, hmt, h3T, ← h2T, ← hT]
          simp [cur_def]
        exact amp h3len
      · -- the child failed: backtrack to a predecessor or give up
        rename_i s₀ hcm
        have C := ihCM f hf child false s₂ _ _ hcm h2W
        obtain ⟨hT, hP, hF, hW, hfail, _⟩ := C
        obtain ⟨hc0, hp0⟩ := hfail rfl
        rcases prev with _ | ⟨ci, tei⟩
        · -- no predecessor: the whole concatenation fails
          dsimp only [] at h
          simp only [Option.some.injEq, Prod.mk.injEq] at h
          obtain ⟨hr, hs⟩ := h
          subst hs
          refine ⟨?_, ?_, ?_, ?_, fun _ => rfl, fun m' hm' => ?_⟩
          · show s₀.target = s.target
            rw [hT, h2T]
          · show s₀.patternIndexSequence.dropLast = _
            rw [hP, h2P]
          · show s₀.matchedTrailingEmptyString = _
            rw [hF, h2F]
          · exact fun E hE => hW E hE
          · rw [← hr] at hm'
            simp at hm'
        · -- a predecessor can backtrack: resume from its last match start
          dsimp only [] at h
          split at h
          · rename_i en hget
            have henmem : en ∈ s₀.backtrackTable := List.get?_mem hget
            have henlen : en.lastMatchStart ≤ s₀.target.length := hW en henmem
            set s₄ := setTopIndex { s₀ with pos := en.lastMatchStart } ci with hs₄
            have h4T : s₄.target = s.target := by
              rw [hs₄, setTopIndex_target]
              show s₀.target = s.target
              rw [hT, h2T]
            have h4pos : s₄.pos = en.lastMatchStart := by
              rw [hs₄, setTopIndex_pos]
            have h4W : WFtab s₄ := by
              intro E hE
              rw [hs₄, setTopIndex_table] at hE
              rw [hs₄, setTopIndex_target]
              exact hW E hE
            have hci : ci < children.length := by
              have := findPrev_lt children s.backtrackTable childIndex ci tei hprev.symm
              omega
            have IH := ihCL f hf children ci oldPos mre s₄ r s' h h4W (h4T ▸ holdlen)
              (Or.inl hci)
            obtain ⟨aT, aP, aF, aW, afail, asucc⟩ := IH
            have hPd : s₄.patternIndexSequence.dropLast
                = s.patternIndexSequence.dropLast := by
              rw [hs₄, setTopIndex_pis_dropLast]
              show s₀.patternIndexSequence.dropLast = _
              rw [hP, h2P]
            have hFd : s₄.matchedTrailingEmptyString = s.matchedTrailingEmptyString := by
              rw [hs₄, setTopIndex_flag]
              show s₀.matchedTrailingEmptyString = _
              rw [hF, h2F]
            refine ⟨aT.trans h4T, aP.trans hPd, aF.trans hFd, aW, afail,
              fun m' hm' => ?_⟩
            obtain ⟨ams, amt, amp⟩ := asucc m' hm'
            have h4len : s₄.pos ≤ s₄.target.length := by
              rw [h4pos, h4T, ← h2T, ← hT]
              exact henlen
            exact ⟨ams, amt, fun _ => amp h4len⟩
          · exact absurd h (by simp)

lemma WFtab_dive (s : MState) (h : WFtab s) : WFtab (dive s) := fun E hE => h E hE

lemma specGM_step (fuel : Nat)
    (ihGL : ∀ g, g < fuel → SpecGL g) : SpecGM fuel := by
  cases fuel with
  | zero =>
    intro q child s r s' h
    simp [groupMatch] at h
  | succ f =>
    intro q child s r s' h hWF
    have hf : f < f + 1 := Nat.lt_succ_self f
    unfold groupMatch at h
    dsimp only [] at h
    split at h
    · exact absurd h (by simp)
    · rename_i endV me s₂ hgl
      have G := ihGL f hf child _ _ false (dive s) endV me s₂ hgl (WFtab_dive s hWF) rfl
      obtain ⟨gT, gP, gF, gW, gc, gp⟩ := G
      have hTT : s₂.target = s.target := gT
      have hPP : s₂.patternIndexSequence = s.patternIndexSequence ++ [0] := gP
      have hpisEnd : (bubbleUp s₂).patternIndexSequence = s.patternIndexSequence := by
        rw [bubbleUp_pis, hPP, List.dropLast_concat]
      have hstart : cur (dive s) = cur s := by simp [cur_def]
      have hposStart : s.pos ≤ s.target.length → s.pos = cur (dive s) := by
        intro hlen
        simp [cur_def]
        omega
      split at h
      · -- total failure of the inner loop
        rename_i hcond
        have hseq : cur (dive s) = endV := by
          simp only [Bool.and_eq_true, beq_iff_eq] at hcond
          exact hcond.1
        split at h
        all_goals (
          simp only [Option.some.injEq, Prod.mk.injEq] at h
          obtain ⟨hr, hs⟩ := h
          subst hs)
        -- `None` and `OneOrMore`: the group fails
        case _ =>
          refine ⟨hTT, hpisEnd, gF, fun E hE => gW E hE, fun _ => ?_, fun m hm => ?_⟩
          · constructor
            · show cur s₂ = cur s
              rw [gc, ← hseq, hstart]
            · intro hlen
              show s₂.pos = s.pos
              rw [gp (by simp only [dive_pos, dive_target]; exact hlen) (hposStart hlen),
                ← hseq]
              exact (hposStart hlen).symm
          · rw [← hr] at hm; simp at hm
        case _ =>
          refine ⟨hTT, hpisEnd, gF, fun E hE => gW E hE, fun _ => ?_, fun m hm => ?_⟩
          · constructor
            · show cur s₂ = cur s
              rw [gc, ← hseq, hstart]
            · intro hlen
              show s₂.pos = s.pos
              rw [gp (by simp only [dive_pos, dive_target]; exact hlen) (hposStart hlen),
                ← hseq]
              exact (hposStart hlen).symm
          · rw [← hr] at hm; simp at hm
        -- `ZeroOrOne` and `ZeroOrMore`: the group matches the empty string
        case _ =>
          refine ⟨hTT, hpisEnd, gF, fun E hE => gW E hE,
            fun hnone => by rw [← hr] at hnone; simp [emptyExpressionMatch] at hnone,
            fun m hm => ?_⟩
          rw [← hr] at hm
          simp only [emptyExpressionMatch, Option.some.injEq] at hm
          subst hm
          refine ⟨?_, ?_, ?_⟩
          · show cur s₂ = cur s
            rw [gc, ← hseq, hstart]
          · show cur s₂ = cur (bubbleUp s₂)
            simp [cur_def]
          · intro hlen
            show s₂.pos = cur s₂
            have h2 := gp (by simp only [dive_pos, dive_target]; exact hlen) (hposStart hlen)
            rw [h2, gc]
      · -- the loop collected a non-trivial match
        simp only [Option.some.injEq, Prod.mk.injEq] at h
        obtain ⟨hr, hs⟩ := h
        subst hs
        refine ⟨hTT, hpisEnd, gF, fun E hE => gW E hE,
          fun hnone => by rw [← hr] at hnone; simp at hnone, fun m hm => ?_⟩
        rw [← hr] at hm
        simp only [Option.some.injEq] at hm
        subst hm
        refine ⟨hstart.symm, ?_, ?_⟩
        · show endV = cur (bubbleUp s₂)
          rw [← gc]
          simp [cur_def]
        · intro hlen
          show s₂.pos = endV
          exact gp (by simp only [dive_pos, dive_target]; exact hlen) (hposStart hlen)

lemma specAM_step (fuel : Nat)
    (ihAL : ∀ g, g < fuel → SpecAL g) : SpecAM fuel := by
  cases fuel with
  | zero =>
    intro cs s r s' h
    simp [alternationMatch] at h
  | succ f =>
    intro cs s r s' h hWF
    have hf : f < f + 1 := Nat.lt_succ_self f
    unfold alternationMatch at h
    dsimp only [] at h
    split at h
    · exact absurd h (by simp)
    · rename_i r₀ s₂ hal
      simp only [Option.some.injEq, Prod.mk.injEq] at h
      obtain ⟨hr, hs⟩ := h
      subst hs
      have A := ihAL f hf cs (cur (dive s)) (dive s) r₀ s₂ hal
        (fun E hE => hWF E hE) rfl
      obtain ⟨aT, aP, aF, aW, afail, asucc⟩ := A
      have hstart : cur (dive s) = cur s := by simp [cur_def]
      have hposStart : s.pos ≤ s.target.length → s.pos = cur (dive s) := by
        intro hlen
        simp [cur_def]
        omega
      have hpisEnd : (bubbleUp s₂).patternIndexSequence = s.patternIndexSequence := by
        rw [bubbleUp_pis]
        have : s₂.patternIndexSequence.dropLast
            = (dive s).patternIndexSequence.dropLast := aP
        rw [this, dive_pis, List.dropLast_concat]
      refine ⟨aT, hpisEnd, aF, fun E hE => aW E hE, fun hnone => ?_, fun m hm => ?_⟩
      · rw [← hr] at hnone
        obtain ⟨ac, ap⟩ := afail hnone
        refine ⟨ac.trans hstart, fun hlen => ?_⟩
        show s₂.pos = s.pos
        rw [ap (by simp only [dive_pos, dive_target]; exact hlen) (hposStart hlen)]
        exact (hposStart hlen).symm
      · rw [← hr] at hm
        obtain ⟨ams, amt, amp⟩ := asucc m hm
        refine ⟨ams.trans hstart, amt, fun hlen => ?_⟩
        show s₂.pos = m.stop
        exact amp (by simp only [dive_pos, dive_target]; exact hlen) (hposStart hlen)

lemma specCCM_step (fuel : Nat)
    (ihCL : ∀ g, g < fuel → SpecCL g) : SpecCCM fuel := by
  cases fuel with
  | zero =>
    intro cs s r s' h
    simp [concatenationMatch] at h
  | succ f =>
    intro cs s r s' h hWF
    have hf : f < f + 1 := Nat.lt_succ_self f
    unfold concatenationMatch at h
    dsimp only [] at h
    split at h
    · exact absurd h (by simp)
    · rename_i r₀ s₂ hcl
      simp only [Option.some.injEq, Prod.mk.injEq] at h
      obtain ⟨hr, hs⟩ := h
      subst hs
      have hposStart : s.pos ≤ s.target.length → s.pos = cur (dive s) := by
        intro hlen
        simp [cur_def]
        omega
      have CL := ihCL f hf (cs.map (fun c => (c, Option.none))) 0 (cur (dive s))
        (cur (dive s)) (dive s) r₀ s₂ hcl (fun E hE => hWF E hE)
        (by simp [cur_def])
        (Or.inr ⟨rfl, fun hlen => by
          simp only [dive_pos, dive_target] at hlen ⊢
          exact hposStart hlen⟩)
      obtain ⟨aT, aP, aF, aW, afail, asucc⟩ := CL
      have hstart : cur (dive s) = cur s := by simp [cur_def]
      have hcur2 : cur s₂ = min s₂.pos s.target.length := by
        rw [cur_def, aT, dive_target]
      have hpisEnd : (bubbleUp s₂).patternIndexSequence = s.patternIndexSequence := by
        rw [bubbleUp_pis]
        have : s₂.patternIndexSequence.dropLast
            = (dive s).patternIndexSequence.dropLast := aP
        rw [this, dive_pis, List.dropLast_concat]
      refine ⟨aT, hpisEnd, aF, fun E hE => aW E hE, fun hnone => ?_, fun m hm => ?_⟩
      · rw [← hr] at hnone
        have ap := afail hnone
        constructor
        · show cur s₂ = cur s
          rw [hcur2, ap]
          simp only [cur_def, dive_pos, dive_target]
          omega
        · intro hlen
          show s₂.pos = s.pos
          rw [ap]
          exact (hposStart hlen).symm
      · rw [← hr] at hm
        obtain ⟨ams, amt, amp⟩ := asucc m hm
        refine ⟨ams.trans hstart, amt, fun hlen => ?_⟩
        show s₂.pos = m.stop
        exact amp (by simp only [dive_pos, dive_target]; exact hlen)

lemma specCM_step (fuel : Nat)
    (ihGM : ∀ g, g < fuel → SpecGM g)
    (ihAM : ∀ g, g < fuel → SpecAM g)
    (ihCCM : ∀ g, g < fuel → SpecCCM g) : SpecCM fuel := by
  cases fuel with
  | zero =>
    intro e isRoot s r s' h
    simp [computeMatch] at h
  | succ f =>
    intro e isRoot s r s' h hWF
    have hf : f < f + 1 := Nat.lt_succ_self f
    unfold computeMatch at h
    dsimp only [] at h
    -- the node spec for each dispatch target
    have hbase : ∀ r₀ s₀,
        (match e with
          | .EmptyExpression => some (emptyExpressionMatch s)
          | .CharacterExpression v q => some (characterExpressionMatch v q s)
          | .Group q child => groupMatch f q child s
          | .Alternation cs => alternationMatch f cs s
          | .Concatenation cs => concatenationMatch f cs s) = some (r₀, s₀) →
        s₀.target = s.target ∧
        s₀.patternIndexSequence = s.patternIndexSequence ∧
        s₀.matchedTrailingEmptyString = s.matchedTrailingEmptyString ∧
        WFtab s₀ ∧
        (r₀ = Option.none → cur s₀ = cur s ∧
          (s.pos ≤ s.target.length → s₀.pos = s.pos)) ∧
        (∀ m, r₀ = some m → m.start = cur s ∧ m.stop = cur s₀ ∧
          (s.pos ≤ s.target.length → s₀.pos = m.stop)) := by
      intro r₀ s₀ hb
      cases e with
      | EmptyExpression =>
        simp only [emptyExpressionMatch, Option.some.injEq, Prod.mk.injEq] at hb
        obtain ⟨hr0, hs0⟩ := hb
        subst hs0
        refine ⟨rfl, rfl, rfl, hWF, fun hn => ⟨rfl, fun _ => rfl⟩, fun m hm => ?_⟩
        rw [← hr0] at hm
        simp only [Option.some.injEq] at hm
        subst hm
        exact ⟨rfl, rfl, fun hlen => by simp [cur_def]; omega⟩
      | CharacterExpression v q =>
        simp only [Option.some.injEq] at hb
        have := charExpr_spec v q s r₀ s₀ hb
        obtain ⟨cT, cP, cF, cB, _, cfail, csucc⟩ := this
        refine ⟨cT, cP, cF, ?_, fun hn => ⟨?_, fun hlen => by rw [cfail hn]⟩, csucc⟩
        · intro E hE
          rw [cB] at hE
          rw [cT]
          exact hWF E hE
        · rw [cur_def, cur_def, cfail hn, cT]
      | Group q child =>
        exact ihGM f hf q child s r₀ s₀ hb hWF
      | Alternation cs =>
        exact ihAM f hf cs s r₀ s₀ hb hWF
      | Concatenation cs =>
        exact ihCCM f hf cs s r₀ s₀ hb hWF
    split at h
    · exact absurd h (by simp)
    · -- base produced a match: the epilogue may record a backtrack entry
      rename_i m s₀ hb
      obtain ⟨bT, bP, bF, bW, _, bsucc⟩ := hbase _ _ hb
      obtain ⟨bms, bmt, bmp⟩ := bsucc m rfl
      split at h
      · -- record the entry
        simp only [Option.some.injEq, Prod.mk.injEq] at h
        obtain ⟨hr, hs⟩ := h
        subst hs
        refine ⟨by rw [recordEntry_target, bT], by rw [recordEntry_pis, bP],
          by rw [recordEntry_flag, bF], ?_,
          fun hnone => by rw [← hr] at hnone; simp at hnone, fun m' hm' => ?_⟩
        · intro E hE
          rw [recordEntry_target]
          have := recordEntry_table_pred (fun n => n ≤ s.target.length) m s₀
            (fun E' hE' => by rw [← bT]; exact bW E' hE')
            (by rw [bms, cur_def]; omega)
          have h2 := this E hE
          rw [bT]
          exact h2
        · rw [← hr] at hm'
          simp only [Option.some.injEq] at hm'
          subst hm'
          refine ⟨bms, ?_, fun hlen => ?_⟩
          · rw [bmt, cur_def, cur_def, recordEntry_pos, recordEntry_target]
          · rw [recordEntry_pos]
            exact bmp hlen
      · -- no entry recorded
        simp only [Option.some.injEq, Prod.mk.injEq] at h
        obtain ⟨hr, hs⟩ := h
        subst hs
        refine ⟨bT, bP, bF, bW,
          fun hnone => by rw [← hr] at hnone; simp at hnone, fun m' hm' => ?_⟩
        rw [← hr] at hm'
        simp only [Option.some.injEq] at hm'
        subst hm'
        exact ⟨bms, bmt, bmp⟩
    · -- base failed: the result is passed through unchanged
      rename_i s₀ hb
      obtain ⟨bT, bP, bF, bW, bfail, _⟩ := hbase _ _ hb
      simp only [Option.some.injEq, Prod.mk.injEq] at h
      obtain ⟨hr, hs⟩ := h
      subst hs
      refine ⟨bT, bP, bF, bW, fun _ => bfail rfl, fun m' hm' => ?_⟩
      rw [← hr] at hm'
      simp at hm'

lemma specAL_step (fuel : Nat)
    (ihCM : ∀ g, g < fuel → SpecCM g)
    (ihAL : ∀ g, g < fuel → SpecAL g) : SpecAL fuel := by
  cases fuel with
  | zero =>
    intro cs oldPos s r s' h
    simp [altLoop] at h
  | succ f =>
    intro cs oldPos s r s' h hWF hcur
    have hf : f < f + 1 := Nat.lt_succ_self f
    have holdlen : oldPos ≤ s.target.length := by rw [← hcur]; simp [cur_def]
    cases cs with
    | nil =>
      simp only [altLoop, Option.some.injEq, Prod.mk.injEq] at h
      obtain ⟨hr, hs⟩ := h
      subst hs
      refine ⟨rfl, rfl, rfl, hWF, fun _ => ⟨hcur, fun _ hpe => hpe⟩, fun m hm => ?_⟩
      rw [← hr] at hm
      simp at hm
    | cons c rest =>
      unfold altLoop at h
      split at h
      · exact absurd h (by simp)
      · -- first child matched: the alternation returns its match
        rename_i m s₀ hcm
        simp only [Option.some.injEq, Prod.mk.injEq] at h
        obtain ⟨hr, hs⟩ := h
        subst hs
        have C := ihCM f hf c false s _ _ hcm hWF
        obtain ⟨hT, hP, hF, hW, _, hsucc⟩ := C
        obtain ⟨hms, hmt, hmp⟩ := hsucc m rfl
        refine ⟨hT, by rw [hP], hF, hW, fun hnone => by rw [← hr] at hnone; simp at hnone,
          fun m' hm' => ?_⟩
        rw [← hr] at hm'
        simp only [Option.some.injEq] at hm'
        subst hm'
        exact ⟨hms.trans hcur, hmt, fun hlen _ => hmp hlen⟩
      · -- first child failed: restore the position and try the next child
        rename_i s₀ hcm
        have C := ihCM f hf c false s _ _ hcm hWF
        obtain ⟨hT, hP, hF, hW, hfail, _⟩ := C
        set s₁ := appointNextChild { s₀ with pos := oldPos } with hs₁
        have h1T : s₁.target = s.target := by
          rw [hs₁, appointNextChild_target]; exact hT
        have h1P : s₁.patternIndexSequence.dropLast = s.patternIndexSequence.dropLast := by
          rw [hs₁, appointNextChild_pis_dropLast]
          simp only
          rw [hP]
        have h1F : s₁.matchedTrailingEmptyString = s.matchedTrailingEmptyString := by
          rw [hs₁, appointNextChild_flag]; exact hF
        have h1W : WFtab s₁ := by
          intro E hE
          rw [h1T]
          rw [hs₁, appointNextChild_table] at hE
          simp only at hE
          exact (hT ▸ hW E hE : E.lastMatchStart ≤ s.target.length)
        have h1pos : s₁.pos = oldPos := by
          rw [hs₁, appointNextChild_pos]
        have h1cur : cur s₁ = oldPos := by
          simp [cur_def, h1pos, h1T]
          omega
        have A := ihAL f hf rest oldPos s₁ r s' h h1W h1cur
        obtain ⟨aT, aP, aF, aW, afail, asucc⟩ := A
        refine ⟨aT.trans h1T, aP.trans h1P, aF.trans h1F, aW, fun hnone => ?_,
          fun m' hm' => ?_⟩
        · obtain ⟨ac, ap⟩ := afail hnone
          exact ⟨ac, fun _ _ => ap (h1pos ▸ h1T ▸ holdlen) h1pos⟩
        · obtain ⟨ams, amt, amp⟩ := asucc m' hm'
          exact ⟨ams, amt, fun _ _ => amp (h1pos ▸ h1T ▸ holdlen) h1pos⟩

/-- All seven interpreter invariants hold at every fuel, by strong induction. -/
theorem spec_all : ∀ fuel, SpecAllAt fuel := by
  intro fuel
  induction fuel using Nat.strong_induction_on with
  | _ fuel ih =>
    have ihCM : ∀ g, g < fuel → SpecCM g := fun g hg => (ih g hg).1
    have ihGM : ∀ g, g < fuel → SpecGM g := fun g hg => (ih g hg).2.1
    have ihAM : ∀ g, g < fuel → SpecAM g := fun g hg => (ih g hg).2.2.1
    have ihCCM : ∀ g, g < fuel → SpecCCM g := fun g hg => (ih g hg).2.2.2.1
    have ihGL : ∀ g, g < fuel → SpecGL g := fun g hg => (ih g hg).2.2.2.2.1
    have ihAL : ∀ g, g < fuel → SpecAL g := fun g hg => (ih g hg).2.2.2.2.2.1
    have ihCL : ∀ g, g < fuel → SpecCL g := fun g hg => (ih g hg).2.2.2.2.2.2
    exact ⟨specCM_step fuel ihGM ihAM ihCCM,
      specGM_step fuel ihGL,
      specAM_step fuel ihAL,
      specCCM_step fuel ihCL,
      specGL_step fuel ihCM ihGL,
      specAL_step fuel ihCM ihAL,
      specCL_step fuel ihCM ihCL⟩

/-- The search loop yields an empty match for the empty expression at the
current cursor and steps one past it; the backtrack table is cleared. -/
lemma nextLoop_empty (f : Nat) (s : MState) :
    nextLoop (f + 2) .EmptyExpression s =
      some (some ⟨cur s, cur s⟩,
        { s with pos := s.pos + 1, backtrackTable := [] }) := by
  have hcm : computeMatch (f + 1) .EmptyExpression true s =
      some (some ⟨cur s, cur s⟩, s) := by
    unfold computeMatch
    simp [emptyExpressionMatch]
  unfold nextLoop
  rw [hcm]
  simp

/-- One `next` of the empty-expression matcher from a cursor inside the
target: yield the empty match there, advance one, and set the
trailing-empty flag exactly when the cursor sat at the end. -/
lemma matcherNext_empty (f p : Nat) (target : List Char) (pis : List Nat)
    (hp : p ≤ target.length) :
    matcherNext (f + 2) .EmptyExpression ⟨target, p, false, pis, []⟩ =
      some (some ⟨p, p⟩,
        ⟨target, p + 1, decide (target.length ≤ p), pis, []⟩) := by
  unfold matcherNext
  rw [if_neg (by simp)]
  dsimp only []
  by_cases hple : target.length ≤ p
  · rw [if_pos hple, nextLoop_empty]
    have hc : cur (dive ⟨target, p, true, pis, []⟩) = p := by
      simp [cur_def]
      omega
    rw [hc]
    simp [dive, bubbleUp, hple]
  · rw [if_neg hple, nextLoop_empty]
    have hc : cur (dive ⟨target, p, false, pis, []⟩) = p := by
      simp [cur_def]
      omega
    rw [hc]
    simp [dive, bubbleUp, hple]

/-- Iterating the empty-expression matcher from position `p` yields the
empty matches at `p, p+1, …, target.length` and then ends. -/
lemma runMatcher_empty (steps : Nat) : ∀ f p target pis,
    target.length + 2 ≤ p + steps → p ≤ target.length →
    runMatcher (f + 2) .EmptyExpression ⟨target, p, false, pis, []⟩ steps =
      some ((List.range (target.length + 1 - p)).map (fun i => ⟨p + i, p + i⟩)) := by
  induction steps with
  | zero =>
    intro f p target pis h1 h2
    exact absurd h1 (by omega)
  | succ st ih =>
    intro f p target pis h1 h2
    unfold runMatcher
    rw [matcherNext_empty f p target pis h2]
    dsimp only []
    by_cases hple : target.length ≤ p
    · have hpe : p = target.length := le_antisymm h2 hple
      cases st with
      | zero => exact absurd h1 (by omega)
      | succ st' =>
        unfold runMatcher
        have hstop : matcherNext (f + 2) .EmptyExpression
            ⟨target, p + 1, decide (target.length ≤ p), pis, []⟩ =
            some (Option.none, ⟨target, p + 1, decide (target.length ≤ p), pis, []⟩) := by
          unfold matcherNext
          rw [if_pos ⟨show target.length < p + 1 by omega, by simp [hple]⟩]
        rw [hstop]
        dsimp only []
        have hr : target.length + 1 - p = 1 := by omega
        rw [hr]
        simp [hpe]
        have : List.range 1 = [0] := rfl
        rw [this]
        simp
    · have hflag : decide (target.length ≤ p) = false := by simp [hple]
      rw [hflag, ih f (p + 1) target pis (by omega) (by omega)]
      have hr : target.length + 1 - p = (target.length - p) + 1 := by omega
      have hr2 : target.length + 1 - (p + 1) = target.length - p := by omega
      rw [hr, hr2, List.range_succ_eq_map]
      simp [Function.comp]
      intro a _
      omega

/-- One iteration of the concatenation loop whose current child matches:
step to the next child. -/
lemma concatLoop_step_success (fuel : Nat)
    (children children' : List (Regexp × Option Nat)) (ci oldPos mre : Nat)
    (s s₁ s' : MState) (child : Regexp) (tip : Option Nat) (prevb : Bool)
    (m : MatchR)
    (hci : ci < children.length)
    (hch : children.getD ci (.EmptyExpression, Option.none) = (child, tip))
    (hprev : (findPrev children s.backtrackTable ci).isSome = prevb)
    (hrearm : rearmChild tip prevb s = s₁)
    (hcm : computeMatch fuel child false s₁ = some (some m, s'))
    (hch2 : (if tip = Option.none && supportsBacktracking child then
        match findEntryIdx s'.backtrackTable s'.patternIndexSequence with
        | some tp => children.set ci (child, some tp)
        | none => children
      else children) = children') :
    concatLoop (fuel + 1) children ci oldPos mre s =
      concatLoop fuel children' (ci + 1) oldPos m.stop (appointNextChild s') := by
  conv_lhs => rw [concatLoop]
  rw [if_pos hci]
  dsimp only []
  rw [hch]
  dsimp only []
  rw [hprev, hrearm, hcm]
  dsimp only []
  rw [hch2]

/-- One iteration of the concatenation loop whose current child fails with
a backtrackable predecessor: resume at the predecessor. -/
lemma concatLoop_step_backtrack (fuel : Nat)
    (children : List (Regexp × Option Nat)) (ci pci tei oldPos mre : Nat)
    (s s₁ s' : MState) (child : Regexp) (tip : Option Nat) (en : BTEntry)
    (hci : ci < children.length)
    (hch : children.getD ci (.EmptyExpression, Option.none) = (child, tip))
    (hprev : findPrev children s.backtrackTable ci = some (pci, tei))
    (hrearm : rearmChild tip true s = s₁)
    (hcm : computeMatch fuel child false s₁ = some (Option.none, s'))
    (hget : s'.backtrackTable.get? tei = some en) :
    concatLoop (fuel + 1) children ci oldPos mre s =
      concatLoop fuel children pci oldPos mre
        (setTopIndex { s' with pos := en.lastMatchStart } pci) := by
  conv_lhs => rw [concatLoop]
  rw [if_pos hci]
  dsimp only []
  rw [hch]
  dsimp only []
  rw [hprev]
  dsimp only [Option.isSome]
  rw [hrearm, hcm]
  dsimp only []
  rw [hget]

/-- One iteration of the concatenation loop whose current child fails with
no backtrackable predecessor: the whole concatenation fails, restoring the
entry position. -/
lemma concatLoop_step_fail (fuel : Nat)
    (children : List (Regexp × Option Nat)) (ci oldPos mre : Nat)
    (s s₁ s' : MState) (child : Regexp) (tip : Option Nat)
    (hci : ci < children.length)
    (hch : children.getD ci (.EmptyExpression, Option.none) = (child, tip))
    (hprev : findPrev children s.backtrackTable ci = Option.none)
    (hrearm : rearmChild tip false s = s₁)
    (hcm : computeMatch fuel child false s₁ = some (Option.none, s')) :
    concatLoop (fuel + 1) children ci oldPos mre s =
      some (Option.none, { s' with pos := oldPos }) := by
  conv_lhs => rw [concatLoop]
  rw [if_pos hci]
  dsimp only []
  rw [hch]
  dsimp only []
  rw [hprev]
  dsimp only [Option.isSome]
  rw [hrearm, hcm]

/-- The concatenation loop past the last child: report the collected match. -/
lemma concatLoop_step_exit (fuel : Nat)
    (children : List (Regexp × Option Nat)) (ci oldPos mre : Nat) (s : MState)
    (hci : ¬ ci < children.length) :
    concatLoop (fuel + 1) children ci oldPos mre s =
      some (some ⟨oldPos, mre⟩, s) := by
  conv_lhs => rw [concatLoop]
  rw [if_neg hci]

/-- A failing root attempt inside the search loop with room to slide right. -/
lemma nextLoop_fail_step (f : Nat) (pat : Regexp) (s s' : MState)
    (res : Option MatchR × MState)
    (h : computeMatch f pat true s = some (Option.none, s'))
    (hnx : s'.pos < s'.target.length)
    (hrec : nextLoop f pat ⟨s'.target, s'.pos + 1, s'.matchedTrailingEmptyString,
      s'.patternIndexSequence, []⟩ = some res) :
    nextLoop (f + 1) pat s = some res := by
  unfold nextLoop
  rw [h]
  dsimp only []
  rw [if_pos (by simp [hasNext]; exact hnx)]
  exact hrec

/-- A failing root attempt inside the search loop at the last position:
the iteration ends. -/
lemma nextLoop_fail_end (f : Nat) (pat : Regexp) (s s' : MState)
    (h : computeMatch f pat true s = some (Option.none, s'))
    (hnx : ¬ s'.pos < s'.target.length) :
    nextLoop (f + 1) pat s = some (Option.none,
      ⟨s'.target, s'.pos, s'.matchedTrailingEmptyString,
        s'.patternIndexSequence, []⟩) := by
  unfold nextLoop
  rw [h]
  dsimp only []
  rw [if_neg (by simp [hasNext]; omega)]

/-- A successful non-empty root attempt inside the search loop. -/
lemma nextLoop_succ (f : Nat) (pat : Regexp) (s s' : MState) (m : MatchR)
    (h : computeMatch f pat true s = some (some m, s'))
    (hne : (m.start == m.stop) = false) :
    nextLoop (f + 1) pat s = some (some m,
      ⟨s'.target, s'.pos, s'.matchedTrailingEmptyString,
        s'.patternIndexSequence, []⟩) := by
  unfold nextLoop
  rw [h]
  dsimp only []
  rw [if_neg (by simp [hne])]

/-- A successful empty root attempt inside the search loop: the cursor is
pushed one past the empty match. -/
lemma nextLoop_succ_empty (f : Nat) (pat : Regexp) (s s' : MState) (m : MatchR)
    (h : computeMatch f pat true s = some (some m, s'))
    (hem : (m.start == m.stop) = true) :
    nextLoop (f + 1) pat s = some (some m,
      ⟨s'.target, s'.pos + 1, s'.matchedTrailingEmptyString,
        s'.patternIndexSequence, []⟩) := by
  unfold nextLoop
  rw [h]
  dsimp only []
  rw [if_pos hem]

/-- `Iterator::next` when the cursor is strictly inside the target. -/
lemma matcherNext_step_lt (fuel : Nat) (pat : Regexp) (s : MState)
    (r : Option MatchR) (s₁ : MState)
    (hlt : s.pos < s.target.length)
    (h : nextLoop fuel pat (dive s) = some (r, s₁)) :
    matcherNext fuel pat s = some (r, bubbleUp s₁) := by
  unfold matcherNext
  rw [if_neg (fun hh => absurd hh.1 (by omega))]
  dsimp only []
  rw [if_neg (by omega), h]

/-- `Iterator::next` at or past the end of the target with the
trailing-empty flag still unset: the flag is raised before the attempt. -/
lemma matcherNext_step_ge (fuel : Nat) (pat : Regexp) (s : MState)
    (r : Option MatchR) (s₁ : MState)
    (hge : s.target.length ≤ s.pos) (hflag : s.matchedTrailingEmptyString = false)
    (h : nextLoop fuel pat (dive { s with matchedTrailingEmptyString := true }) =
      some (r, s₁)) :
    matcherNext fuel pat s = some (r, bubbleUp s₁) := by
  unfold matcherNext
  rw [if_neg (by simp [hflag])]
  dsimp only []
  rw [if_pos hge, h]

/-- `Iterator::next` after an empty match at the very end: iteration over. -/
lemma matcherNext_exhausted (fuel : Nat) (pat : Regexp) (s : MState)
    (hlt : s.target.length < s.pos) (hflag : s.matchedTrailingEmptyString = true) :
    matcherNext fuel pat s = some (Option.none, s) := by
  unfold matcherNext
  rw [if_pos ⟨hlt, hflag⟩]

/-- One yielded match prepended to the rest of the iteration. -/
lemma runMatcher_step (fuel : Nat) (pat : Regexp) (s s' : MState) (m : MatchR)
    (steps : Nat) (l : List MatchR)
    (h : matcherNext fuel pat s = some (some m, s'))
    (hrest : runMatcher fuel pat s' steps = some l) :
    runMatcher fuel pat s (steps + 1) = some (m :: l) := by
  unfold runMatcher
  rw [h]
  dsimp only []
  rw [hrest]
  rfl

/-- The iterator signals the end: the collected list closes. -/
lemma runMatcher_stop (fuel : Nat) (pat : Regexp) (s s' : MState) (steps : Nat)
    (h : matcherNext fuel pat s = some (Option.none, s')) :
    runMatcher fuel pat s (steps + 1) = some [] := by
  unfold runMatcher
  rw [h]

/-- The two small dispatch lemmas used to assemble concrete concatenation
attempts from `concatLoop` chains. -/
lemma concatenationMatch_of_loop (fuel : Nat) (cs : List Regexp) (s : MState)
    (oldPos : Nat) (r : Option MatchR) (s₂ : MState)
    (hop : cur (dive s) = oldPos)
    (h : concatLoop fuel (cs.map (fun c => (c, Option.none))) 0 oldPos oldPos
      (dive s) = some (r, s₂)) :
    concatenationMatch (fuel + 1) cs s = some (r, bubbleUp s₂) := by
  conv_lhs => rw [concatenationMatch]
  try dsimp only []
  rw [hop, h]

/-- A successful root concatenation attempt records no backtrack entry. -/
lemma computeMatch_concat_root (fuel : Nat) (cs : List Regexp) (s s' : MState)
    (m : MatchR)
    (h : concatenationMatch fuel cs s = some (some m, s')) :
    computeMatch (fuel + 1) (.Concatenation cs) true s = some (some m, s') := by
  conv_lhs => rw [computeMatch]
  try dsimp only []
  rw [h]
  try dsimp only []
  rw [if_neg (by simp)]

/-- Evaluation of the `a*` iterator over `aaabaa` (each step is one
attempt of the search loop, chained through literal states). -/
lemma allMatches_star_eval :
    allMatches 99 "a*".toList "aaabaa".toList 12 =
      some [⟨0, 3⟩, ⟨3, 3⟩, ⟨4, 6⟩, ⟨6, 6⟩] := by
  have h0 : matcherNew "a*".toList "aaabaa".toList = some ((.CharacterExpression (some 'a') .ZeroOrMore : Regexp), initState "aaabaa".toList) := rfl
  have hN1 : matcherNext 99 (.CharacterExpression (some 'a') .ZeroOrMore : Regexp) (initState "aaabaa".toList) =
      some (some ⟨0, 3⟩, (⟨"aaabaa".toList, 3, false, [], []⟩ : MState)) := by decide
  have hN2 : matcherNext 99 (.CharacterExpression (some 'a') .ZeroOrMore : Regexp) (⟨"aaabaa".toList, 3, false, [], []⟩ : MState) =
      some (some ⟨3, 3⟩, (⟨"aaabaa".toList, 4, false, [], []⟩ : MState)) := by decide
  have hN3 : matcherNext 99 (.CharacterExpression (some 'a') .ZeroOrMore : Regexp) (⟨"aaabaa".toList, 4, false, [], []⟩ : MState) =
      some (some ⟨4, 6⟩, (⟨"aaabaa".toList, 6, false, [], []⟩ : MState)) := by decide
  have hN4 : matcherNext 99 (.CharacterExpression (some 'a') .ZeroOrMore : Regexp) (⟨"aaabaa".toList, 6, false, [], []⟩ : MState) =
      some (some ⟨6, 6⟩, (⟨"aaabaa".toList, 7, true, [], []⟩ : MState)) := by decide
  have hN5 : matcherNext 99 (.CharacterExpression (some 'a') .ZeroOrMore : Regexp) (⟨"aaabaa".toList, 7, true, [], []⟩ : MState) =
      some (Option.none, (⟨"aaabaa".toList, 7, true, [], []⟩ : MState)) := by decide
  unfold allMatches
  rw [h0]
  exact runMatcher_step 99 (.CharacterExpression (some 'a') .ZeroOrMore : Regexp) (initState "aaabaa".toList) (⟨"aaabaa".toList, 3, false, [], []⟩ : MState)
    ⟨0, 3⟩ 11 _ hN1
    (runMatcher_step 99 (.CharacterExpression (some 'a') .ZeroOrMore : Regexp) (⟨"aaabaa".toList, 3, false, [], []⟩ : MState) (⟨"aaabaa".toList, 4, false, [], []⟩ : MState)
      ⟨3, 3⟩ 10 _ hN2
      (runMatcher_step 99 (.CharacterExpression (some 'a') .ZeroOrMore : Regexp) (⟨"aaabaa".toList, 4, false, [], []⟩ : MState) (⟨"aaabaa".toList, 6, false, [], []⟩ : MState)
        ⟨4, 6⟩ 9 _ hN3
        (runMatcher_step 99 (.CharacterExpression (some 'a') .ZeroOrMore : Regexp) (⟨"aaabaa".toList, 6, false, [], []⟩ : MState) (⟨"aaabaa".toList, 7, true, [], []⟩ : MState)
          ⟨6, 6⟩ 8 _ hN4
          (runMatcher_stop 99 (.CharacterExpression (some 'a') .ZeroOrMore : Regexp) (⟨"aaabaa".toList, 7, true, [], []⟩ : MState) (⟨"aaabaa".toList, 7, true, [], []⟩ : MState)
            7 hN5))))

/-- Evaluation of the `a*` iterator over `a`. -/
lemma allMatches_star_single_eval :
    allMatches 99 "a*".toList "a".toList 12 = some [⟨0, 1⟩, ⟨1, 1⟩] := by
  have h0 : matcherNew "a*".toList "a".toList =
      some ((.CharacterExpression (some 'a') .ZeroOrMore : Regexp), initState "a".toList) := rfl
  have hN1 : matcherNext 99 (.CharacterExpression (some 'a') .ZeroOrMore : Regexp) (initState "a".toList) =
      some (some ⟨0, 1⟩, ⟨"a".toList, 1, false, [], []⟩) := by decide
  have hN2 : matcherNext 99 (.CharacterExpression (some 'a') .ZeroOrMore : Regexp) (⟨"a".toList, 1, false, [], []⟩ : MState) =
      some (some ⟨1, 1⟩, ⟨"a".toList, 2, true, [], []⟩) := by decide
  have hN3 : matcherNext 99 (.CharacterExpression (some 'a') .ZeroOrMore : Regexp) (⟨"a".toList, 2, true, [], []⟩ : MState) =
      some (Option.none, ⟨"a".toList, 2, true, [], []⟩) := by decide
  unfold allMatches
  rw [h0]
  exact runMatcher_step 99 (.CharacterExpression (some 'a') .ZeroOrMore : Regexp) (initState "a".toList) (⟨"a".toList, 1, false, [], []⟩ : MState)
    ⟨0, 1⟩ 11 _ hN1
    (runMatcher_step 99 (.CharacterExpression (some 'a') .ZeroOrMore : Regexp) (⟨"a".toList, 1, false, [], []⟩ : MState)
      (⟨"a".toList, 2, true, [], []⟩ : MState) ⟨1, 1⟩ 10 _ hN2
      (runMatcher_stop 99 (.CharacterExpression (some 'a') .ZeroOrMore : Regexp) (⟨"a".toList, 2, true, [], []⟩ : MState)
        (⟨"a".toList, 2, true, [], []⟩ : MState) 9 hN3))

/-- Evaluation of the `\(.*\)` iterator over `x(hi)y(ok)`: a single
greedy match `[1,10)`, assembled stepwise through the backtracking
attempt at position 1. -/
lemma allMatches_group_eval :
    allMatches 99 "\\(.*\\)".toList "x(hi)y(ok)".toList 12 = some [⟨1, 10⟩] := by
  have h0 : matcherNew "\\(.*\\)".toList "x(hi)y(ok)".toList =
      some ((.Concatenation [.CharacterExpression (some '(') .None, .CharacterExpression Option.none .ZeroOrMore, .CharacterExpression (some ')') .None] : Regexp), initState "x(hi)y(ok)".toList) := rfl
  have step1 : concatLoop 95 [((.CharacterExpression (some '(') .None : Regexp), (Option.none : Option Nat)), ((.CharacterExpression Option.none .ZeroOrMore : Regexp), Option.none), ((.CharacterExpression (some ')') .None : Regexp), Option.none)] 0 1 1 (⟨"x(hi)y(ok)".toList, 1, false, [0, 0], []⟩ : MState) =
      concatLoop 94 [((.CharacterExpression (some '(') .None : Regexp), (Option.none : Option Nat)), ((.CharacterExpression Option.none .ZeroOrMore : Regexp), Option.none), ((.CharacterExpression (some ')') .None : Regexp), Option.none)] 1 1 2 (⟨"x(hi)y(ok)".toList, 2, false, [0, 1], []⟩ : MState) :=
    concatLoop_step_success 94 [((.CharacterExpression (some '(') .None : Regexp), (Option.none : Option Nat)), ((.CharacterExpression Option.none .ZeroOrMore : Regexp), Option.none), ((.CharacterExpression (some ')') .None : Regexp), Option.none)] [((.CharacterExpression (some '(') .None : Regexp), (Option.none : Option Nat)), ((.CharacterExpression Option.none .ZeroOrMore : Regexp), Option.none), ((.CharacterExpression (some ')') .None : Regexp), Option.none)] 0 1 1
      (⟨"x(hi)y(ok)".toList, 1, false, [0, 0], []⟩ : MState) (⟨"x(hi)y(ok)".toList, 1, false, [0, 0], []⟩ : MState)
      (⟨"x(hi)y(ok)".toList, 2, false, [0, 0], []⟩ : MState) (.CharacterExpression (some '(') .None : Regexp) Option.none false ⟨1, 2⟩
      (by decide) rfl rfl rfl (by decide) rfl
  have step2 : concatLoop 94 [((.CharacterExpression (some '(') .None : Regexp), (Option.none : Option Nat)), ((.CharacterExpression Option.none .ZeroOrMore : Regexp), Option.none), ((.CharacterExpression (some ')') .None : Regexp), Option.none)] 1 1 2 (⟨"x(hi)y(ok)".toList, 2, false, [0, 1], []⟩ : MState) =
      concatLoop 93 [((.CharacterExpression (some '(') .None : Regexp), (Option.none : Option Nat)), ((.CharacterExpression Option.none .ZeroOrMore : Regexp), some 0), ((.CharacterExpression (some ')') .None : Regexp), Option.none)] 2 1 10 (⟨"x(hi)y(ok)".toList, 10, false, [0, 2], [(⟨[0, 1], 2, 10, false⟩ : BTEntry)]⟩ : MState) :=
    concatLoop_step_success 93 [((.CharacterExpression (some '(') .None : Regexp), (Option.none : Option Nat)), ((.CharacterExpression Option.none .ZeroOrMore : Regexp), Option.none), ((.CharacterExpression (some ')') .None : Regexp), Option.none)] [((.CharacterExpression (some '(') .None : Regexp), (Option.none : Option Nat)), ((.CharacterExpression Option.none .ZeroOrMore : Regexp), some 0), ((.CharacterExpression (some ')') .None : Regexp), Option.none)] 1 1 2
      (⟨"x(hi)y(ok)".toList, 2, false, [0, 1], []⟩ : MState) (⟨"x(hi)y(ok)".toList, 2, false, [0, 1], []⟩ : MState)
      (⟨"x(hi)y(ok)".toList, 10, false, [0, 1], [(⟨[0, 1], 2, 10, false⟩ : BTEntry)]⟩ : MState) (.CharacterExpression Option.none .ZeroOrMore : Regexp) Option.none false ⟨2, 10⟩
      (by decide) rfl rfl rfl (by decide) rfl
  have step3 : concatLoop 93 [((.CharacterExpression (some '(') .None : Regexp), (Option.none : Option Nat)), ((.CharacterExpression Option.none .ZeroOrMore : Regexp), some 0), ((.CharacterExpression (some ')') .None : Regexp), Option.none)] 2 1 10 (⟨"x(hi)y(ok)".toList, 10, false, [0, 2], [(⟨[0, 1], 2, 10, false⟩ : BTEntry)]⟩ : MState) =
      concatLoop 92 [((.CharacterExpression (some '(') .None : Regexp), (Option.none : Option Nat)), ((.CharacterExpression Option.none .ZeroOrMore : Regexp), some 0), ((.CharacterExpression (some ')') .None : Regexp), Option.none)] 1 1 10 (⟨"x(hi)y(ok)".toList, 2, false, [0, 1], [(⟨[0, 1], 2, 10, false⟩ : BTEntry)]⟩ : MState) :=
    concatLoop_step_backtrack 92 [((.CharacterExpression (some '(') .None : Regexp), (Option.none : Option Nat)), ((.CharacterExpression Option.none .ZeroOrMore : Regexp), some 0), ((.CharacterExpression (some ')') .None : Regexp), Option.none)] 2 1 0 1 10
      (⟨"x(hi)y(ok)".toList, 10, false, [0, 2], [(⟨[0, 1], 2, 10, false⟩ : BTEntry)]⟩ : MState) (⟨"x(hi)y(ok)".toList, 10, false, [0, 2], [(⟨[0, 1], 2, 10, false⟩ : BTEntry)]⟩ : MState)
      (⟨"x(hi)y(ok)".toList, 10, false, [0, 2], [(⟨[0, 1], 2, 10, false⟩ : BTEntry)]⟩ : MState) (.CharacterExpression (some ')') .None : Regexp) Option.none (⟨[0, 1], 2, 10, false⟩ : BTEntry)
      (by decide) rfl rfl rfl (by decide) rfl
  have step4 : concatLoop 92 [((.CharacterExpression (some '(') .None : Regexp), (Option.none : Option Nat)), ((.CharacterExpression Option.none .ZeroOrMore : Regexp), some 0), ((.CharacterExpression (some ')') .None : Regexp), Option.none)] 1 1 10 (⟨"x(hi)y(ok)".toList, 2, false, [0, 1], [(⟨[0, 1], 2, 10, false⟩ : BTEntry)]⟩ : MState) =
      concatLoop 91 [((.CharacterExpression (some '(') .None : Regexp), (Option.none : Option Nat)), ((.CharacterExpression Option.none .ZeroOrMore : Regexp), some 0), ((.CharacterExpression (some ')') .None : Regexp), Option.none)] 2 1 9 (⟨"x(hi)y(ok)".toList, 9, false, [0, 2], [(⟨[0, 1], 2, 9, false⟩ : BTEntry)]⟩ : MState) :=
    concatLoop_step_success 91 [((.CharacterExpression (some '(') .None : Regexp), (Option.none : Option Nat)), ((.CharacterExpression Option.none .ZeroOrMore : Regexp), some 0), ((.CharacterExpression (some ')') .None : Regexp), Option.none)] [((.CharacterExpression (some '(') .None : Regexp), (Option.none : Option Nat)), ((.CharacterExpression Option.none .ZeroOrMore : Regexp), some 0), ((.CharacterExpression (some ')') .None : Regexp), Option.none)] 1 1 10
      (⟨"x(hi)y(ok)".toList, 2, false, [0, 1], [(⟨[0, 1], 2, 10, false⟩ : BTEntry)]⟩ : MState) (⟨"x(hi)y(ok)".toList, 2, false, [0, 1], [(⟨[0, 1], 2, 10, false⟩ : BTEntry)]⟩ : MState)
      (⟨"x(hi)y(ok)".toList, 9, false, [0, 1], [(⟨[0, 1], 2, 9, false⟩ : BTEntry)]⟩ : MState) (.CharacterExpression Option.none .ZeroOrMore : Regexp) (some 0) false ⟨2, 9⟩
      (by decide) rfl rfl rfl (by decide) rfl
  have step5 : concatLoop 91 [((.CharacterExpression (some '(') .None : Regexp), (Option.none : Option Nat)), ((.CharacterExpression Option.none .ZeroOrMore : Regexp), some 0), ((.CharacterExpression (some ')') .None : Regexp), Option.none)] 2 1 9 (⟨"x(hi)y(ok)".toList, 9, false, [0, 2], [(⟨[0, 1], 2, 9, false⟩ : BTEntry)]⟩ : MState) =
      concatLoop 90 [((.CharacterExpression (some '(') .None : Regexp), (Option.none : Option Nat)), ((.CharacterExpression Option.none .ZeroOrMore : Regexp), some 0), ((.CharacterExpression (some ')') .None : Regexp), Option.none)] 3 1 10 (⟨"x(hi)y(ok)".toList, 10, false, [0, 3], [(⟨[0, 1], 2, 9, false⟩ : BTEntry)]⟩ : MState) :=
    concatLoop_step_success 90 [((.CharacterExpression (some '(') .None : Regexp), (Option.none : Option Nat)), ((.CharacterExpression Option.none .ZeroOrMore : Regexp), some 0), ((.CharacterExpression (some ')') .None : Regexp), Option.none)] [((.CharacterExpression (some '(') .None : Regexp), (Option.none : Option Nat)), ((.CharacterExpression Option.none .ZeroOrMore : Regexp), some 0), ((.CharacterExpression (some ')') .None : Regexp), Option.none)] 2 1 9
      (⟨"x(hi)y(ok)".toList, 9, false, [0, 2], [(⟨[0, 1], 2, 9, false⟩ : BTEntry)]⟩ : MState) (⟨"x(hi)y(ok)".toList, 9, false, [0, 2], [(⟨[0, 1], 2, 9, false⟩ : BTEntry)]⟩ : MState)
      (⟨"x(hi)y(ok)".toList, 10, false, [0, 2], [(⟨[0, 1], 2, 9, false⟩ : BTEntry)]⟩ : MState) (.CharacterExpression (some ')') .None : Regexp) Option.none true ⟨9, 10⟩
      (by decide) rfl rfl rfl (by decide) rfl
  have step6 : concatLoop 90 [((.CharacterExpression (some '(') .None : Regexp), (Option.none : Option Nat)), ((.CharacterExpression Option.none .ZeroOrMore : Regexp), some 0), ((.CharacterExpression (some ')') .None : Regexp), Option.none)] 3 1 10 (⟨"x(hi)y(ok)".toList, 10, false, [0, 3], [(⟨[0, 1], 2, 9, false⟩ : BTEntry)]⟩ : MState) =
      some (some ⟨1, 10⟩, (⟨"x(hi)y(ok)".toList, 10, false, [0, 3], [(⟨[0, 1], 2, 9, false⟩ : BTEntry)]⟩ : MState)) :=
    concatLoop_step_exit 89 [((.CharacterExpression (some '(') .None : Regexp), (Option.none : Option Nat)), ((.CharacterExpression Option.none .ZeroOrMore : Regexp), some 0), ((.CharacterExpression (some ')') .None : Regexp), Option.none)] 3 1 10 (⟨"x(hi)y(ok)".toList, 10, false, [0, 3], [(⟨[0, 1], 2, 9, false⟩ : BTEntry)]⟩ : MState)
      (by decide)
  have hB : concatenationMatch 96 [.CharacterExpression (some '(') Quantifier.None, .CharacterExpression Option.none Quantifier.ZeroOrMore, .CharacterExpression (some ')') Quantifier.None] (⟨"x(hi)y(ok)".toList, 1, false, [0], []⟩ : MState) =
      some (some ⟨1, 10⟩, (⟨"x(hi)y(ok)".toList, 10, false, [0], [(⟨[0, 1], 2, 9, false⟩ : BTEntry)]⟩ : MState)) :=
    concatenationMatch_of_loop 95 [.CharacterExpression (some '(') Quantifier.None, .CharacterExpression Option.none Quantifier.ZeroOrMore, .CharacterExpression (some ')') Quantifier.None] (⟨"x(hi)y(ok)".toList, 1, false, [0], []⟩ : MState)
      1 (some ⟨1, 10⟩) (⟨"x(hi)y(ok)".toList, 10, false, [0, 3], [(⟨[0, 1], 2, 9, false⟩ : BTEntry)]⟩ : MState)
      (by decide)
      (step1.trans (step2.trans (step3.trans (step4.trans (step5.trans step6)))))
  have hA : computeMatch 97 (.Concatenation [.CharacterExpression (some '(') .None, .CharacterExpression Option.none .ZeroOrMore, .CharacterExpression (some ')') .None] : Regexp) true (⟨"x(hi)y(ok)".toList, 1, false, [0], []⟩ : MState) =
      some (some ⟨1, 10⟩, (⟨"x(hi)y(ok)".toList, 10, false, [0], [(⟨[0, 1], 2, 9, false⟩ : BTEntry)]⟩ : MState)) :=
    computeMatch_concat_root 96 [.CharacterExpression (some '(') Quantifier.None, .CharacterExpression Option.none Quantifier.ZeroOrMore, .CharacterExpression (some ')') Quantifier.None] (⟨"x(hi)y(ok)".toList, 1, false, [0], []⟩ : MState)
      (⟨"x(hi)y(ok)".toList, 10, false, [0], [(⟨[0, 1], 2, 9, false⟩ : BTEntry)]⟩ : MState) ⟨1, 10⟩ hB
  have hA0 : computeMatch 98 (.Concatenation [.CharacterExpression (some '(') .None, .CharacterExpression Option.none .ZeroOrMore, .CharacterExpression (some ')') .None] : Regexp) true (⟨"x(hi)y(ok)".toList, 0, false, [0], []⟩ : MState) =
      some (Option.none, (⟨"x(hi)y(ok)".toList, 0, false, [0], []⟩ : MState)) := by decide
  have hNL : nextLoop 99 (.Concatenation [.CharacterExpression (some '(') .None, .CharacterExpression Option.none .ZeroOrMore, .CharacterExpression (some ')') .None] : Regexp) (⟨"x(hi)y(ok)".toList, 0, false, [0], []⟩ : MState) =
      some (some ⟨1, 10⟩, (⟨"x(hi)y(ok)".toList, 10, false, [0], []⟩ : MState)) :=
    nextLoop_fail_step 98 (.Concatenation [.CharacterExpression (some '(') .None, .CharacterExpression Option.none .ZeroOrMore, .CharacterExpression (some ')') .None] : Regexp) (⟨"x(hi)y(ok)".toList, 0, false, [0], []⟩ : MState)
      (⟨"x(hi)y(ok)".toList, 0, false, [0], []⟩ : MState) (some ⟨1, 10⟩, (⟨"x(hi)y(ok)".toList, 10, false, [0], []⟩ : MState))
      hA0 (by decide)
      (nextLoop_succ 97 (.Concatenation [.CharacterExpression (some '(') .None, .CharacterExpression Option.none .ZeroOrMore, .CharacterExpression (some ')') .None] : Regexp) (⟨"x(hi)y(ok)".toList, 1, false, [0], []⟩ : MState)
        (⟨"x(hi)y(ok)".toList, 10, false, [0], [(⟨[0, 1], 2, 9, false⟩ : BTEntry)]⟩ : MState) ⟨1, 10⟩ hA (by decide))
  have hN1 : matcherNext 99 (.Concatenation [.CharacterExpression (some '(') .None, .CharacterExpression Option.none .ZeroOrMore, .CharacterExpression (some ')') .None] : Regexp) (initState "x(hi)y(ok)".toList) =
      some (some ⟨1, 10⟩, (⟨"x(hi)y(ok)".toList, 10, false, [], []⟩ : MState)) :=
    matcherNext_step_lt 99 (.Concatenation [.CharacterExpression (some '(') .None, .CharacterExpression Option.none .ZeroOrMore, .CharacterExpression (some ')') .None] : Regexp) (initState "x(hi)y(ok)".toList) (some ⟨1, 10⟩)
      (⟨"x(hi)y(ok)".toList, 10, false, [0], []⟩ : MState) (by decide) hNL
  have hA2 : computeMatch 98 (.Concatenation [.CharacterExpression (some '(') .None, .CharacterExpression Option.none .ZeroOrMore, .CharacterExpression (some ')') .None] : Regexp) true (⟨"x(hi)y(ok)".toList, 10, true, [0], []⟩ : MState) =
      some (Option.none, (⟨"x(hi)y(ok)".toList, 10, true, [0], []⟩ : MState)) := by decide
  have hN2 : matcherNext 99 (.Concatenation [.CharacterExpression (some '(') .None, .CharacterExpression Option.none .ZeroOrMore, .CharacterExpression (some ')') .None] : Regexp) (⟨"x(hi)y(ok)".toList, 10, false, [], []⟩ : MState) =
      some (Option.none, (⟨"x(hi)y(ok)".toList, 10, true, [], []⟩ : MState)) :=
    matcherNext_step_ge 99 (.Concatenation [.CharacterExpression (some '(') .None, .CharacterExpression Option.none .ZeroOrMore, .CharacterExpression (some ')') .None] : Regexp) (⟨"x(hi)y(ok)".toList, 10, false, [], []⟩ : MState) Option.none
      (⟨"x(hi)y(ok)".toList, 10, true, [0], []⟩ : MState) (by decide) rfl
      (nextLoop_fail_end 98 (.Concatenation [.CharacterExpression (some '(') .None, .CharacterExpression Option.none .ZeroOrMore, .CharacterExpression (some ')') .None] : Regexp) (⟨"x(hi)y(ok)".toList, 10, true, [0], []⟩ : MState)
        (⟨"x(hi)y(ok)".toList, 10, true, [0], []⟩ : MState) hA2 (by decide))
  unfold allMatches
  rw [h0]
  exact runMatcher_step 99 (.Concatenation [.CharacterExpression (some '(') .None, .CharacterExpression Option.none .ZeroOrMore, .CharacterExpression (some ')') .None] : Regexp) (initState "x(hi)y(ok)".toList) (⟨"x(hi)y(ok)".toList, 10, false, [], []⟩ : MState)
    ⟨1, 10⟩ 11 _ hN1
    (runMatcher_stop 99 (.Concatenation [.CharacterExpression (some '(') .None, .CharacterExpression Option.none .ZeroOrMore, .CharacterExpression (some ')') .None] : Regexp) (⟨"x(hi)y(ok)".toList, 10, false, [], []⟩ : MState)
      (⟨"x(hi)y(ok)".toList, 10, true, [], []⟩ : MState) 10 hN2)

set_option maxRecDepth 40000

/-- Claim C2 (amended): the empty pattern — the canonical pattern whose
every match is empty — yields exactly one empty match at every target
position from `0` to `target.length` inclusive, in order, and then the
iterator terminates.  (The original claim, quantified over every pattern
that can match the empty string, is refuted by `c2_empty_counterexample`.) -/
theorem c2_empty_pattern (fuel steps : Nat) (target : List Char)
    (hf : 2 ≤ fuel) (hs : target.length + 2 ≤ steps) :
    runMatcher fuel .EmptyExpression (initState target) steps =
      some ((List.range (target.length + 1)).map (fun i => ⟨i, i⟩)) := by
  obtain ⟨f, rfl⟩ : ∃ f, fuel = f + 2 := ⟨fuel - 2, by omega⟩
  have h := runMatcher_empty steps f 0 target [] (by omega) (by omega)
  have hinit : initState target = ⟨target, 0, false, [], []⟩ := rfl
  rw [hinit, h]
  simp

/-- Witness for C2: the empty pattern over target `ab`. -/
theorem c2_empty_pattern_witness :
    2 ≤ 2 ∧ "ab".toList.length + 2 ≤ 4 ∧
    runMatcher 2 .EmptyExpression (initState "ab".toList) 4 =
      some ((List.range ("ab".toList.length + 1)).map (fun i => ⟨i, i⟩)) :=
  ⟨by decide, by decide, c2_empty_pattern 2 4 "ab".toList (by decide) (by decide)⟩

/-- Counterexample for C2 as stated: `a*` can match the empty string, yet
over target `a` the iterator yields `[0,1), [1,1)` — there is no empty
match at position 0. -/
theorem c2_empty_counterexample :
    allMatches 99 "a*".toList "a".toList 12 = some [⟨0, 1⟩, ⟨1, 1⟩] ∧
    some [(⟨0, 1⟩ : MatchR), ⟨1, 1⟩] ≠ some [(⟨0, 0⟩ : MatchR), ⟨1, 1⟩] :=
  ⟨allMatches_star_single_eval, by decide⟩

/-- Claim C10: whenever a subexpression's match attempt (any node type)
returns no match, the cursor `pos` equals the value it had on entry. -/
theorem c10_failure_frame (fuel : Nat) (e : Regexp) (isRoot : Bool)
    (s s' : MState) (hWF : WFtab s) (hpos : s.pos ≤ s.target.length)
    (h : computeMatch fuel e isRoot s = some (Option.none, s')) :
    s'.pos = s.pos := by
  obtain ⟨-, -, -, -, nfail, -⟩ := (spec_all fuel).1 e isRoot s Option.none s' h hWF
  exact (nfail rfl).2 hpos

/-- Witness for C10: `a` fails against `b` and leaves the cursor at 0. -/
theorem c10_failure_frame_witness :
    computeMatch 5 (.CharacterExpression (some 'a') .None) true (initState ['b']) =
      some (Option.none, initState ['b']) ∧
    (initState ['b']).pos ≤ (initState ['b']).target.length ∧
    (initState ['b']).pos = (initState ['b']).pos :=
  ⟨by decide, by decide,
    c10_failure_frame 5 (.CharacterExpression (some 'a') .None) true (initState ['b'])
      (initState ['b']) (fun E hE => absurd hE (List.not_mem_nil E)) (by decide) (by decide)⟩

/-- Claim C9: a character or dot expression whose consuming loop produced
an empty range fails under quantifier `None`/`OneOrMore` and returns the
empty match at the current position under `ZeroOrOne`/`ZeroOrMore`;
a non-empty range is returned as the match. -/
theorem c9_char_empty_range (v : Option Char) (q : Quantifier) (s : MState)
    (r : Option MatchR) (s' : MState)
    (h : characterExpressionMatch v q s = (r, s')) :
    (cur s' = cur s →
      ((q = .None ∨ q = .OneOrMore) → r = Option.none) ∧
      ((q = .ZeroOrOne ∨ q = .ZeroOrMore) → r = some ⟨cur s, cur s⟩)) ∧
    (cur s' ≠ cur s → r = some ⟨cur s, cur s'⟩) := by
  unfold characterExpressionMatch at h
  dsimp only [] at h
  rcases q with _ | _ | _ | _ <;>
    (unfold charStep at h; dsimp only [emptyExpressionMatch] at h; split at h <;>
      (rename_i hcond;
        simp only [Prod.mk.injEq] at h;
        obtain ⟨hr, hs⟩ := h;
        subst hs;
        subst hr))
  case None.isTrue =>
    exact ⟨fun _ => ⟨fun _ => rfl, fun hq => by rcases hq with hq | hq <;> simp at hq⟩,
      fun hne => absurd hcond.symm hne⟩
  case None.isFalse =>
    exact ⟨fun he => absurd he.symm hcond, fun _ => rfl⟩
  case ZeroOrOne.isTrue =>
    refine ⟨fun _ => ⟨fun hq => by rcases hq with hq | hq <;> simp at hq,
      fun _ => ?_⟩, fun hne => absurd hcond.symm hne⟩
    rw [← hcond]
  case ZeroOrOne.isFalse =>
    exact ⟨fun he => absurd he.symm hcond, fun _ => rfl⟩
  case ZeroOrMore.isTrue =>
    refine ⟨fun _ => ⟨fun hq => by rcases hq with hq | hq <;> simp at hq,
      fun _ => ?_⟩, fun hne => absurd hcond.symm hne⟩
    rw [← hcond]
  case ZeroOrMore.isFalse =>
    exact ⟨fun he => absurd he.symm hcond, fun _ => rfl⟩
  case OneOrMore.isTrue =>
    exact ⟨fun _ => ⟨fun _ => rfl, fun hq => by rcases hq with hq | hq <;> simp at hq⟩,
      fun hne => absurd hcond.symm hne⟩
  case OneOrMore.isFalse =>
    exact ⟨fun he => absurd he.symm hcond, fun _ => rfl⟩

/-- Witness for C9: `a*` against `b` produces an empty range at position 0
and returns the empty match there. -/
theorem c9_char_empty_range_witness :
    (some (MatchR.mk 0 0) : Option MatchR) =
      some ⟨cur (initState ['b']), cur (initState ['b'])⟩ :=
  ((c9_char_empty_range (some 'a') .ZeroOrMore (initState ['b'])
      (some ⟨0, 0⟩) (initState ['b']) (by decide)).1 rfl).2 (Or.inr rfl)

/-- Claim C3 (amended): `a*` over `aaabaa` yields `[0,3)`, `[3,3)`,
`[4,6)`, `[6,6)` and then terminates (the spec's table omits the empty
match `[3,3)` emitted at the position after the first match). -/
theorem c3_star_matches :
    allMatches 99 "a*".toList "aaabaa".toList 12 =
      some [⟨0, 3⟩, ⟨3, 3⟩, ⟨4, 6⟩, ⟨6, 6⟩] := allMatches_star_eval

/-- Counterexample for C3 as stated: the yielded sequence contains the
empty match `[3,3)`, so it differs from the spec's `[0,3), [4,6), [6,6)`. -/
theorem c3_star_counterexample :
    allMatches 99 "a*".toList "aaabaa".toList 12 =
      some [⟨0, 3⟩, ⟨3, 3⟩, ⟨4, 6⟩, ⟨6, 6⟩] ∧
    some [(⟨0, 3⟩ : MatchR), ⟨3, 3⟩, ⟨4, 6⟩, ⟨6, 6⟩] ≠
      some [(⟨0, 3⟩ : MatchR), ⟨4, 6⟩, ⟨6, 6⟩] :=
  ⟨allMatches_star_eval, by decide⟩

/-- Claim C6 (amended): `parse_source` never looks at tokens left over
after the first expression, so `a**` compiles — to the very same result
as `a*` — instead of raising a syntax error. -/
theorem c6_stacked_quantifier : parse "a**".toList = parse "a*".toList := rfl

/-- Counterexample for C6 as stated: compiling `a**` succeeds. -/
theorem c6_stacked_counterexample :
    (parse "a**".toList).map (fun r => r.isOk) = some true := by decide

/-- Claim C4 (amended): `\(.*\)` over `x(hi)y(ok)` yields the single
greedy match `[1,10)`: `.*` first runs to the end of the target and
backtracks only far enough for the final `\)` to match at position 9.
(The spec's row `[1,5), [6,10)` is refuted by `c4_group_counterexample`.) -/
theorem c4_group_matches :
    allMatches 99 "\\(.*\\)".toList "x(hi)y(ok)".toList 12 = some [⟨1, 10⟩] :=
  allMatches_group_eval

/-- Counterexample for C4 as stated: the yielded sequence is the single
greedy match `[1,10)`, not `[1,5), [6,10)`. -/
theorem c4_group_counterexample :
    allMatches 99 "\\(.*\\)".toList "x(hi)y(ok)".toList 12 = some [⟨1, 10⟩] ∧
    some [(⟨1, 10⟩ : MatchR)] ≠ some [(⟨1, 5⟩ : MatchR), ⟨6, 10⟩] :=
  ⟨allMatches_group_eval, by decide⟩

lemma sget_zero (src : List Char) (c : Nat) (fb : Bool) (i : Nat) :
    ScanState.get ⟨src, c, fb⟩ i 0 = src.getD i '\x00' := by
  unfold ScanState.get
  rw [if_pos (by omega)]
  norm_num

lemma sget_one (src : List Char) (c : Nat) (fb : Bool) (i : Nat) :
    ScanState.get ⟨src, c, fb⟩ i 1 = src.getD (i + 1) '\x00' := by
  unfold ScanState.get
  rw [if_pos (by omega)]
  norm_num

lemma sget_neg_one_zero (src : List Char) (c : Nat) (fb : Bool) :
    ScanState.get ⟨src, c, fb⟩ 0 (-1) = '\x00' := by
  unfold ScanState.get
  rw [if_neg (by norm_num)]

lemma sget_neg_two_zero (src : List Char) (c : Nat) (fb : Bool) :
    ScanState.get ⟨src, c, fb⟩ 0 (-2) = '\x00' := by
  unfold ScanState.get
  rw [if_neg (by norm_num)]

/-- Claim C7 (amended): an unescaped `\` at the very end of the source is
not a lexical error — the scanner emits an unescaped `Character` token
carrying `\` itself and consumes it (there is no error path in the
scanner at all).  `c7_trailing_counterexample` shows a pattern ending in
`\` even compiling successfully. -/
theorem c7_trailing_backslash (st : ScanState)
    (hlast : st.current + 1 = st.source.length)
    (hc : st.source.getD st.current '\x00' = '\\') :
    scannerNext st =
      some (⟨.Character '\\' false, st.current⟩,
        ⟨st.source, st.current + 1, false⟩) := by
  obtain ⟨src, cu, fb⟩ := st
  dsimp only [] at hlast hc ⊢
  have hrest : scannerRest ⟨src, cu, fb⟩ =
      some (⟨.Character '\\' false, cu⟩, ⟨src, cu + 1, false⟩) := by
    unfold scannerRest
    dsimp only []
    rw [if_pos (show cu < src.length by omega)]
    rw [sget_zero, hc]
    rw [if_neg (by decide), if_neg (by decide), if_neg (by decide),
      if_neg (by decide), if_neg (by decide), if_neg (by decide),
      if_neg (by decide), if_pos rfl]
    rw [sget_one, List.getD_eq_default _ _ (by omega)]
    rw [if_neg (by decide)]
  unfold scannerNext
  dsimp only []
  rw [sget_zero, hc]
  by_cases hout : (¬ ScanState.get ⟨src, cu, fb⟩ cu (-2) = '\\') ∧
      ¬ fb = true
  · rw [if_pos hout]
    rw [if_neg ?hC]
    · exact hrest
    case hC =>
      rintro ((he | ⟨-, hp⟩) | ⟨-, (hp | hp)⟩ | (⟨-, (hp | hp)⟩ | ⟨hp, -⟩))
      · rw [List.isEmpty_iff] at he
        rw [he] at hlast
        simp at hlast
      all_goals simp at hp
  · rw [if_neg hout]
    exact hrest

/-- Witness for C7: the one-character source `\`. -/
theorem c7_trailing_backslash_witness :
    (ScanState.new ['\\']).current + 1 = (ScanState.new ['\\']).source.length ∧
    scannerNext (ScanState.new ['\\']) =
      some (⟨.Character '\\' false, (ScanState.new ['\\']).current⟩,
        ⟨(ScanState.new ['\\']).source, (ScanState.new ['\\']).current + 1, false⟩) :=
  ⟨by decide, c7_trailing_backslash (ScanState.new ['\\']) (by decide) (by decide)⟩

/-- Counterexample for C7 as stated: the source `\` lexes to a `Character`
token (no error), and the pattern `a\` compiles successfully. -/
theorem c7_trailing_counterexample :
    scanAll 20 (ScanState.new ['\\']) = [⟨.Character '\\' false, 0⟩] ∧
    (parse ['a', '\\']).map (fun r => r.isOk) = some true :=
  ⟨by decide, by decide⟩

/-- Claim C8 (amended): with the cursor at position 0 on a `|`, the scanner
emits an `Empty` token at position 0 without consuming anything only when
`|` is the whole source; when at least one character follows the leading
`|`, the first token is `Pipe` at position 0. -/
theorem c8_leading_pipe :
    scannerNext (ScanState.new ['|']) = some (⟨.Empty, 0⟩, ⟨['|'], 0, true⟩) ∧
    ∀ c rest, scannerNext (ScanState.new ('|' :: c :: rest)) =
      some (⟨.Pipe, 0⟩, ⟨'|' :: c :: rest, 1, false⟩) := by
  constructor
  · decide
  · intro c rest
    unfold scannerNext
    dsimp only [ScanState.new]
    rw [sget_zero, sget_neg_one_zero, sget_neg_two_zero]
    rw [if_pos (by constructor <;> simp)]
    rw [if_neg ?hC]
    · unfold scannerRest
      dsimp only []
      rw [if_pos (by simp)]
      rw [sget_zero]
      simp
    case hC =>
      rintro ((he | ⟨hl, -⟩) | ⟨hp, -⟩ | (⟨hp, -⟩ | ⟨-, hl⟩))
      · simp at he
      · simp at hl
      · simp at hp
      · simp at hp
      · simp at hl

/-- Counterexample for C8 as stated: for the source `|a` — first character
`|` with the cursor at 0 — the first token is `Pipe` at 0, not `Empty`. -/
theorem c8_leading_pipe_counterexample :
    (scanAll 20 (ScanState.new ['|', 'a'])).head? = some ⟨.Pipe, 0⟩ ∧
    TokenName.Pipe ≠ TokenName.Empty :=
  ⟨by decide, by decide⟩

